import Mathlib

/-!
Verification development for the Myelin flow-transformer pipeline and runtime
accessors (sling/myelin).  The definitions shallowly embed the C++ sources:
`sling/myelin/kernel/arithmetic.cc` (expression fusion, Div/AddNeg/Logic
transformers) and `myelin/compute.h` (tensor and instance accessors).

Flow graphs are embedded with explicit names standing for the C++ object
pointers: variables and operations are identified by their (unique) names,
constant payloads live in an explicit arena of buffers so that pointer
reassignment (`var->data = buffer`) is observable, and float scalars are
modelled as rationals.  The expression IR (`Express`) of `express.h` is not
part of the provided sources; it is modelled from the specification
(section 3 "Expression IR" and section 4.1), with recipes kept in their
parsed structured form as the specification explicitly allows.
-/

namespace Myelin

/-- Element types of flow variables (the `Type` enum `DT_FLOAT`, ...). -/
inductive DType where
  | DT_FLOAT
  | DT_DOUBLE
  | DT_INT32
  deriving DecidableEq, Repr

/-- A shape is an ordered list of dimensions; `-1` means unbounded batch. -/
abbrev Shape := List Int

namespace Shape

/-- A shape is fully defined when no dimension is `-1`. -/
def defined (s : Shape) : Bool := s.all (fun d => d ≥ 0)

/-- Rank of a shape. -/
def rank (s : Shape) : Nat := s.length

/-- Number of elements: product of the dimensions (1 for rank 0). -/
def elements (s : Shape) : Int := s.foldl (fun a d => a * d) 1

/-- Modelled from the spec: `Shape::IsCompatible` of the flow model
(`shapes of fused operands are broadcast-compatible`): dimensions are
aligned from the trailing end and each aligned pair must be equal or
have one side equal to 1 (or the undefined marker -1). -/
def isCompatible (s t : Shape) : Bool :=
  let n := min s.length t.length
  (List.range n).all (fun i =>
    let d1 := s.getD (s.length - 1 - i) 1
    let d2 := t.getD (t.length - 1 - i) 1
    d1 = d2 || d1 = 1 || d1 = -1 || d2 = 1 || d2 = -1)

/-- Modelled from the spec: `Shape::CommonSize`, the broadcasting-aware
common size of two shapes (section 4.4: the minimum common size between
prototype and inputs): the product of the longest run of equal trailing
dimensions. -/
def commonSize (s t : Shape) : Int :=
  let n := min s.length t.length
  (List.range n).foldl
    (fun acc i =>
      let d1 := s.getD (s.length - 1 - i) 1
      let d2 := t.getD (t.length - 1 - i) 1
      match acc with
      | none => none
      | some a => if d1 = d2 then some (a * d1) else none)
    (some 1) |>.getD 1

end Shape

/-! ### Expression IR (Modelled from the spec)

`express.h` / `express.cc` are not part of the provided sources; the claims
only exercise them through `arithmetic.cc`.  The IR below follows the
data model of the specification: a flat list of typed variables (input, output,
const, number, temp) and ops (ADD, MUL, ..., reductions and comparisons).
Recipes are kept in parsed structured form (the round-trip
law of the specification `parse(emit(e)) = e` makes the string representation interchangeable
with the structure). -/

/-- Index of the first element satisfying a predicate. -/
def firstIdxP {α : Type} (p : α → Bool) : List α → Option Nat
  | [] => none
  | a :: l => if p a then some 0 else (firstIdxP p l).map (fun i => i + 1)

/-- Variable kinds of the expression IR. -/
inductive ExVarType where
  | INPUT
  | OUTPUT
  | CONST
  | NUMBER
  | TEMP
  deriving DecidableEq, Repr

/-- Operation kinds of the expression IR (the subset reachable from the
`OpType` table in arithmetic.cc that the claims exercise, plus the seven
reduction ops). -/
inductive ExOpType where
  | MOV
  | ADD
  | SUB
  | MUL
  | DIV
  | MINIMUM
  | MAXIMUM
  | NEG
  | ABS
  | RELU
  | SQUARE
  | SQRT
  | RSQRT
  | RECIPROCAL
  | LOG
  | EXP
  | SIGMOID
  | TANH
  | ERF
  | CMPEQOQ
  | CMPNEUQ
  | CMPLTOQ
  | CMPLEOQ
  | CMPGTOQ
  | CMPGEOQ
  | COND
  | SELECT
  | AND
  | OR
  | XOR
  | ANDNOT
  | NOT
  | SUM
  | PRODUCT
  | MIN
  | MAX
  | ALL
  | ANY
  | COUNT
  | SIGN
  | SOFTSIGN
  | SOFTPLUS
  | LOGSIGMOID
  | SIN
  | COS
  | TAN
  | COT
  | SEC
  | CSC
  | ASIN
  | ACOS
  | ATAN
  | ACOT
  | ASEC
  | ACSC
  | SINH
  | COSH
  | COTH
  | SECH
  | CSCH
  | ASINH
  | ACOSH
  | ATANH
  | ACOTH
  | ASECH
  | ACSCH
  deriving DecidableEq, Repr

namespace ExOpType

/-- Reduction predicate (`Express::Op::reduction()`): the reduction ops are
Sum, Product, Min, Max, All, Any and Count. -/
def reduction : ExOpType → Bool
  | SUM | PRODUCT | MIN | MAX | ALL | ANY | COUNT => true
  | _ => false

end ExOpType

/-- Special system constant ids for `Express.NUMBER` variables
(`Express::ZERO` etc.); the concrete code points are opaque, only
distinctness matters. -/
def exprZERO : Int := 1000
def exprONE : Int := 1001
def exprHALF : Int := 1002
def exprTWO : Int := 1003
def exprN1 : Int := 1004

/-- A variable of the expression IR. -/
structure ExVar where
  vtype : ExVarType
  id : Int
  single : Bool := false
  deriving DecidableEq, Repr

/-- An operation of the expression IR.  Arguments and result reference
variables by their position in the variable list of the expression (standing in
for the C++ `Var *` pointers). -/
structure ExOp where
  op : ExOpType
  args : List Nat
  result : Nat
  deriving DecidableEq, Repr

/-- An expression: flat variable list plus operation list. -/
structure Express where
  vars : List ExVar
  ops : List ExOp
  deriving DecidableEq, Repr

namespace Express

/-- The empty expression. -/
def empty : Express := ⟨[], []⟩

/-- Index of the variable with the given kind and id, if present. -/
def findVarIdx (e : Express) (t : ExVarType) (id : Int) : Option Nat :=
  firstIdxP (fun v => v.vtype = t && v.id = id) e.vars

/-- `Express::Variable`: look up the variable with the given kind and id,
creating it if absent.  Returns the expression together with the
index of the variable. -/
def getVariable (e : Express) (t : ExVarType) (id : Int) : Express × Nat :=
  match e.findVarIdx t id with
  | some i => (e, i)
  | none => ({ e with vars := e.vars ++ [⟨t, id, false⟩] }, e.vars.length)

/-- The variable stored at an index (dummy variable when out of range). -/
def varAt (e : Express) (i : Nat) : ExVar :=
  (e.vars[i]?).getD ⟨ExVarType.TEMP, -1, false⟩

/-- Update the variable stored at an index. -/
def setVar (e : Express) (i : Nat) (v : ExVar) : Express :=
  { e with vars := e.vars.set i v }

/-- `Express::Var::usages()`: the number of times the variable is consumed
as an argument by ops of the expression. -/
def usages (e : Express) (i : Nat) : Nat :=
  (e.ops.map (fun op => op.args.count i)).sum

/-- `Express::CompactTempVars`: renumber temporary variables with
consecutive ids in order of appearance. -/
def compactTempVars (e : Express) : Express :=
  let step := fun (acc : List ExVar × Int) (v : ExVar) =>
    if v.vtype = ExVarType.TEMP then
      (acc.1 ++ [{ v with id := acc.2 }], acc.2 + 1)
    else
      (acc.1 ++ [v], acc.2)
  { e with vars := (e.vars.foldl step ([], 0)).1 }

/-- Number of temporary variables in the expression. -/
def tempCount (e : Express) : Nat :=
  e.vars.countP (fun v => v.vtype = ExVarType.TEMP)

end Express

/-! ### Flow model

The in-memory dataflow graph consumed by the transformers.  Variables and
operations are identified by unique names (standing for the C++ object
pointers); producer and consumer edges are derived from the operation
lists, and constant data lives in an arena of buffers indexed by
`Variable.data` so that `var->data = buffer` reassignments are visible. -/

/-- Attribute values on operations.  C++ stores strings; booleans and
expression recipes are kept structured here (the recipe string and its
parsed form are interchangeable by the round-trip law of the spec). -/
inductive AttrVal where
  | bval (b : Bool)
  | eval (e : Express)
  | sval (s : String)
  deriving DecidableEq, Repr

/-- A flow variable: element type, shape, optional constant payload
(an index into the buffer arena of the flow) and the flow-output flag. -/
structure Variable where
  name : String
  dtype : DType
  shape : Shape
  data : Option Nat := none
  out : Bool := false
  deriving DecidableEq, Repr

namespace Variable

/-- `Variable::constant()`: a variable is constant when it has data. -/
def constant (v : Variable) : Bool := v.data.isSome

/-- `Variable::elements()`. -/
def elements (v : Variable) : Int := v.shape.elements

/-- `Variable::rank()`. -/
def rank (v : Variable) : Nat := v.shape.rank

end Variable

/-- A flow operation: type string, ordered input/output variable names and
an attribute map. -/
structure Operation where
  name : String
  type : String
  inputs : List String
  outputs : List String
  attrs : List (String × AttrVal) := []
  deriving DecidableEq, Repr

namespace Operation

def indegree (op : Operation) : Nat := op.inputs.length

def outdegree (op : Operation) : Nat := op.outputs.length

/-- `Operation::GetAttr(name, bool default)`. -/
def getAttrBool (op : Operation) (key : String) (dflt : Bool) : Bool :=
  match op.attrs.lookup key with
  | some (AttrVal.bval b) => b
  | _ => dflt

/-- The structured `expr` attribute, when present. -/
def getAttrExpr (op : Operation) : Option Express :=
  match op.attrs.lookup "expr" with
  | some (AttrVal.eval e) => some e
  | _ => none

/-- `Operation::SetAttr("expr", recipe)`. -/
def setAttrExpr (op : Operation) (e : Express) : Operation :=
  { op with attrs := ("expr", AttrVal.eval e) :: op.attrs.filter (fun kv => kv.1 ≠ "expr") }

/-- `Operation::IsInput(var)`. -/
def IsInput (op : Operation) (v : String) : Bool := op.inputs.contains v

/-- `Operation::IsOutput(var)`. -/
def IsOutput (op : Operation) (v : String) : Bool := op.outputs.contains v

/-- `Operation::InputIndex(var)`: position of a variable in the input list,
or none when absent (C++ returns -1). -/
def inputIndex (op : Operation) (v : String) : Option Nat :=
  firstIdxP (fun u => u = v) op.inputs

/-- `Operation::RemoveInput(var)`: drop the first occurrence of the
variable from the input list. -/
def removeInput (op : Operation) (v : String) : Operation :=
  { op with inputs := op.inputs.eraseP (fun u => u = v) }

end Operation

/-- A flow: variables, operations and the constant-buffer arena.  Scalar
float buffers are modelled as rationals. -/
structure Flow where
  vars : List Variable
  ops : List Operation
  buffers : List (List Rat) := []
  deriving DecidableEq, Repr

namespace Flow

/-- Look up a variable by name. -/
def findVar (f : Flow) (v : String) : Option Variable :=
  f.vars.find? (fun w => w.name = v)

/-- Look up an operation by name. -/
def findOp (f : Flow) (nm : String) : Option Operation :=
  f.ops.find? (fun o => o.name = nm)

/-- The producer of a variable: the operation listing it as an output. -/
def producer (f : Flow) (v : String) : Option Operation :=
  f.ops.find? (fun o => o.IsOutput v)

/-- `Variable::usages()`: number of consumer edges (with multiplicity). -/
def usages (f : Flow) (v : String) : Nat :=
  (f.ops.map (fun o => o.inputs.count v)).sum

/-- `Variable::consumers`: the consumer operations in order, with
multiplicity for repeated inputs. -/
def consumers (f : Flow) (v : String) : List Operation :=
  f.ops.flatMap (fun o => List.replicate (o.inputs.count v) o)

/-- The flow-output flag of a variable. -/
def varOut (f : Flow) (v : String) : Bool :=
  match f.findVar v with
  | some w => w.out
  | none => false

/-- Whether a variable is constant. -/
def varConstant (f : Flow) (v : String) : Bool :=
  match f.findVar v with
  | some w => w.constant
  | none => false

/-- Element count of a variable. -/
def varElements (f : Flow) (v : String) : Int :=
  match f.findVar v with
  | some w => w.elements
  | none => 0

/-- The first rational of the constant buffer of a variable (the float value a
`reinterpret_cast<const float *>(var->data)` read yields). -/
def varValue (f : Flow) (v : String) : Option Rat :=
  match f.findVar v with
  | some w =>
    match w.data with
    | some i => (f.buffers.getD i []).head?
    | none => none
  | none => none

/-- `Variable::DependsOn(op)`: whether the value of the variable depends on
the given operation, following producer edges.  Fuel-bounded recursion; on
acyclic flows a fuel of `f.ops.length` reaches every ancestor. -/
def dependsOnFuel (f : Flow) : Nat → String → String → Bool
  | 0, _, _ => false
  | fuel + 1, v, opName =>
    match f.producer v with
    | none => false
    | some p =>
      p.name = opName || p.inputs.any (fun u => dependsOnFuel f fuel u opName)

/-- `Variable::DependsOn(op)` with the canonical fuel. -/
def dependsOn (f : Flow) (v : String) (opName : String) : Bool :=
  dependsOnFuel f f.ops.length v opName

/-- `Flow::Find("A|k:B")`: all operations of type `b` whose input `k` has a
producer of type `a` (section 6 of the spec). -/
def findPattern (f : Flow) (a : String) (k : Nat) (b : String) : List Operation :=
  f.ops.filter (fun o =>
    o.type = b &&
    match o.inputs.get? k with
    | some v =>
      match f.producer v with
      | some p => p.type = a
      | none => false
    | none => false)

/-- Replace the operation with the given name. -/
def mapOp (f : Flow) (nm : String) (g : Operation → Operation) : Flow :=
  { f with ops := f.ops.map (fun o => if o.name = nm then g o else o) }

/-- Replace the variable with the given name. -/
def mapVar (f : Flow) (nm : String) (g : Variable → Variable) : Flow :=
  { f with vars := f.vars.map (fun v => if v.name = nm then g v else v) }

/-- `Flow::AllocateMemory` followed by a scalar store: append a buffer to
the arena, returning the flow and the index of the buffer. -/
def allocateScalar (f : Flow) (x : Rat) : Flow × Nat :=
  ({ f with buffers := f.buffers ++ [[x]] }, f.buffers.length)

/-- Modelled from the spec: `Flow::Eliminate(op)` ("removes an op bypassing
it", section 6).  For a single-input single-output operation, every
consumer of the output is rewired to the input, the output variable is
deleted and the operation removed.  The transformers only call this when
the output is not a flow output and (except for usage-free outputs) has
its consumers rewired. -/
def eliminate (f : Flow) (op : Operation) : Flow :=
  match op.inputs.head?, op.outputs.head? with
  | some x, some y =>
    { f with
      vars := f.vars.filter (fun v => v.name ≠ y),
      ops := f.ops.filterMap (fun o =>
        if o.name = op.name then none
        else some { o with inputs := o.inputs.map (fun u => if u = y then x else u) }) }
  | _, _ => f

/-- Whether the operation names of a flow are distinct (each C++ operation
object is a distinct pointer; names stand for pointers here). -/
def opNamesNodup (f : Flow) : Prop := (f.ops.map (fun o => o.name)).Nodup

instance (f : Flow) : Decidable f.opNamesNodup := by
  unfold opNamesNodup; infer_instance

end Flow

/-! ### arithmetic.cc: fusable-op table and expression construction -/

/-- `OpType(const string&)`: the table of operations that can be fused into
Calculate operations; strings not in the table map to `Express::INVALID`
(here: `none`). -/
def OpType (s : String) : Option ExOpType :=
  if s = "Add" then some ExOpType.ADD
  else if s = "Sub" then some ExOpType.SUB
  else if s = "Mul" then some ExOpType.MUL
  else if s = "Div" then some ExOpType.DIV
  else if s = "RealDiv" then some ExOpType.DIV
  else if s = "Minimum" then some ExOpType.MINIMUM
  else if s = "Maximum" then some ExOpType.MAXIMUM
  else if s = "Log" then some ExOpType.LOG
  else if s = "Exp" then some ExOpType.EXP
  else if s = "Sigmoid" then some ExOpType.SIGMOID
  else if s = "Erf" then some ExOpType.ERF
  else if s = "Sin" then some ExOpType.SIN
  else if s = "Cos" then some ExOpType.COS
  else if s = "Tan" then some ExOpType.TAN
  else if s = "Cot" then some ExOpType.COT
  else if s = "Sec" then some ExOpType.SEC
  else if s = "Csc" then some ExOpType.CSC
  else if s = "Asin" then some ExOpType.ASIN
  else if s = "Acos" then some ExOpType.ACOS
  else if s = "Atan" then some ExOpType.ATAN
  else if s = "Acot" then some ExOpType.ACOT
  else if s = "Asec" then some ExOpType.ASEC
  else if s = "Acsc" then some ExOpType.ACSC
  else if s = "Sinh" then some ExOpType.SINH
  else if s = "Cosh" then some ExOpType.COSH
  else if s = "Tanh" then some ExOpType.TANH
  else if s = "Coth" then some ExOpType.COTH
  else if s = "Sech" then some ExOpType.SECH
  else if s = "Csch" then some ExOpType.CSCH
  else if s = "Asinh" then some ExOpType.ASINH
  else if s = "Acosh" then some ExOpType.ACOSH
  else if s = "Atanh" then some ExOpType.ATANH
  else if s = "Acoth" then some ExOpType.ACOTH
  else if s = "Asech" then some ExOpType.ASECH
  else if s = "Acsch" then some ExOpType.ACSCH
  else if s = "Neg" then some ExOpType.NEG
  else if s = "Abs" then some ExOpType.ABS
  else if s = "Sign" then some ExOpType.SIGN
  else if s = "Relu" then some ExOpType.RELU
  else if s = "Softsign" then some ExOpType.SOFTSIGN
  else if s = "Softplus" then some ExOpType.SOFTPLUS
  else if s = "LogSigmoid" then some ExOpType.LOGSIGMOID
  else if s = "Reciprocal" then some ExOpType.RECIPROCAL
  else if s = "Square" then some ExOpType.SQUARE
  else if s = "Sqrt" then some ExOpType.SQRT
  else if s = "Rsqrt" then some ExOpType.RSQRT
  else if s = "Equal" then some ExOpType.CMPEQOQ
  else if s = "NotEqual" then some ExOpType.CMPNEUQ
  else if s = "Less" then some ExOpType.CMPLTOQ
  else if s = "LessEqual" then some ExOpType.CMPLEOQ
  else if s = "Greater" then some ExOpType.CMPGTOQ
  else if s = "GreaterEqual" then some ExOpType.CMPGEOQ
  else if s = "Cond" then some ExOpType.COND
  else if s = "Select" then some ExOpType.SELECT
  else if s = "And" then some ExOpType.AND
  else if s = "Or" then some ExOpType.OR
  else if s = "Xor" then some ExOpType.XOR
  else if s = "AndNot" then some ExOpType.ANDNOT
  else if s = "Not" then some ExOpType.NOT
  else if s = "Sum" then some ExOpType.SUM
  else if s = "Product" then some ExOpType.PRODUCT
  else if s = "Min" then some ExOpType.MIN
  else if s = "Max" then some ExOpType.MAX
  else if s = "All" then some ExOpType.ALL
  else if s = "Any" then some ExOpType.ANY
  else if s = "Count" then some ExOpType.COUNT
  else if s = "Identity" then some ExOpType.MOV
  else none

/-- `IsCalculateOp`: candidate for Calculate fusion. -/
def IsCalculateOp (op : Operation) : Bool :=
  op.type = "Calculate" || (OpType op.type).isSome

/-- `IsAssignmentOp`. -/
def IsAssignmentOp (op : Operation) : Bool :=
  op.type = "Assign"

/-- The default recipe for an Assign without an `expr` attribute:
`@0=Id(%1)` (move input 1 to output 0). -/
def assignDefaultExpr : Express :=
  { vars := [⟨ExVarType.OUTPUT, 0, false⟩, ⟨ExVarType.INPUT, 1, false⟩],
    ops := [⟨ExOpType.MOV, [1], 0⟩] }

/-- One iteration of the constant/scalar marking loop at the end of
`InitExpression(Flow::Operation*, Express*)`: for input `i` with one
element, turn the expression variable into a NUMBER (recognised system
constants), a CONST (other constants) or set `single` (non-constants). -/
def markInput (f : Flow) (op : Operation) (e : Express) (i : Nat) : Express :=
  match op.inputs.get? i with
  | none => e
  | some vn =>
    if f.varElements vn = 1 then
      let constId : Int :=
        if f.varConstant vn then
          match f.findVar vn with
          | some w =>
            if w.dtype = DType.DT_FLOAT || w.dtype = DType.DT_DOUBLE then
              match f.varValue vn with
              | some q =>
                if q = 0 then exprZERO
                else if q = 1 then exprONE
                else if q = 1/2 then exprHALF
                else if q = 2 then exprTWO
                else if q = -1 then exprN1
                else -1
              | none => -1
            else -1
          | none => -1
        else -1
      let ev := e.getVariable ExVarType.INPUT i
      let e1 := ev.1
      let vi := ev.2
      if constId ≠ -1 then
        e1.setVar vi { e1.varAt vi with vtype := ExVarType.NUMBER, id := constId }
      else if f.varConstant vn then
        e1.setVar vi { e1.varAt vi with vtype := ExVarType.CONST }
      else
        e1.setVar vi { e1.varAt vi with single := true }
    else e

/-- `InitExpression(Flow::Operation*, Express*)`: parse the recipe of a
Calculate/Assign op (recipes are stored structured here), or build the
one-function expression of a simple fusable op, then mark constant and
scalar inputs. -/
def InitExpression (f : Flow) (op : Operation) : Express :=
  let base :=
    if op.type = "Calculate" then
      match op.getAttrExpr with
      | some e => e
      | none => Express.empty
    else if op.type = "Assign" then
      match op.getAttrExpr with
      | some e => e
      | none => assignDefaultExpr
    else
      { vars :=
          (List.range op.indegree).map (fun i => ⟨ExVarType.INPUT, (i : Int), false⟩)
            ++ [⟨ExVarType.OUTPUT, 0, false⟩],
        ops :=
          match OpType op.type with
          | some t => [⟨t, List.range op.indegree, op.indegree⟩]
          | none => [] }
  (List.range op.indegree).foldl (fun e i => markInput f op e i) base

/-- `ExpressionTransformer::InputType`: constant scalars become CONST
variables, everything else INPUT. -/
def InputType (f : Flow) (vn : String) : ExVarType :=
  if f.varConstant vn && f.varElements vn = 1 then ExVarType.CONST
  else ExVarType.INPUT

/-- `ExpressionTransformer::MapVars`: map the flow variables of the op to
expression variables (inputs by position and kind, outputs by position).
Later bindings shadow earlier ones, as with the C++ `std::map` writes. -/
def MapVars (f : Flow) (op : Operation) (e : Express) :
    Express × List (String × Nat) :=
  let inStep := fun (acc : Express × List (String × Nat)) (i : Nat) =>
    match op.inputs.get? i with
    | none => acc
    | some vn =>
      let ev := acc.1.getVariable (InputType f vn) i
      (ev.1, (vn, ev.2) :: acc.2)
  let outStep := fun (acc : Express × List (String × Nat)) (i : Nat) =>
    match op.outputs.get? i with
    | none => acc
    | some vn =>
      let ev := acc.1.getVariable ExVarType.OUTPUT i
      (ev.1, (vn, ev.2) :: acc.2)
  let a1 := (List.range op.indegree).foldl inStep (e, [])
  (List.range op.outdegree).foldl outStep a1

/-! ### FuseExpressions: merging the expressions of the two ops -/

/-- Working state while building the variable mapping from the second
expression into the first (`Express::Map mapping; int next_input, next_output`). -/
structure FuseState where
  e1 : Express
  mapping : List (Nat × Nat)
  nextInput : Nat
  nextOutput : Int
  deriving Repr

/-- Demote an output variable of the first expression to a temporary
(`vars1[v]->type = TEMP; vars1[v]->id = -1`) and renumber the remaining
OUTPUT ids above the demoted id down by one. -/
def demoteToTemp (e : Express) (vi : Nat) : Express × Int :=
  let id := (e.varAt vi).id
  let e1 := e.setVar vi { e.varAt vi with vtype := ExVarType.TEMP, id := -1 }
  ({ e1 with
     vars := e1.vars.map (fun v =>
       if v.vtype = ExVarType.OUTPUT && v.id > id then { v with id := v.id - 1 } else v) },
   id)

/-- Process one input of the second op (the `for (Flow::Variable *v :
second->inputs)` body): unify with the inputs of the first op, demote and map
its outputs, or append a fresh input. -/
def fuseSecondInput (f : Flow) (first : Operation)
    (vars1 vars2 : List (String × Nat)) (st : FuseState) (vn : String) : FuseState :=
  let v2 := (vars2.lookup vn).getD 0
  if first.IsInput vn then
    { st with mapping := (v2, (vars1.lookup vn).getD 0) :: st.mapping }
  else if first.IsOutput vn then
    let v1 := (vars1.lookup vn).getD 0
    if f.usages vn = 1 && !(f.varOut vn) then
      let d := demoteToTemp st.e1 v1
      { st with
        e1 := d.1,
        nextOutput := st.nextOutput - 1,
        mapping := (v2, v1) :: st.mapping }
    else
      { st with mapping := (v2, v1) :: st.mapping }
  else
    let ev := st.e1.getVariable (InputType f vn) st.nextInput
    { st with
      e1 := ev.1,
      nextInput := st.nextInput + 1,
      mapping := (v2, ev.2) :: st.mapping }

/-- Process one output of the second op (the `for (Flow::Variable *v :
second->outputs)` body).  The demotion branch mirrors the C++ exactly,
including its use of the variable id from the first expression to renumber
the outputs of the second expression. -/
def fuseSecondOutput (f : Flow) (first : Operation)
    (vars1 vars2 : List (String × Nat)) (ste2 : FuseState × Express)
    (vn : String) : FuseState × Express :=
  let st := ste2.1
  let e2 := ste2.2
  let v2 := (vars2.lookup vn).getD 0
  if first.IsInput vn then
    let v1 := (vars1.lookup vn).getD 0
    if f.usages vn = 1 && !(f.varOut vn) then
      let id := (st.e1.varAt v1).id
      let e1a := st.e1.setVar v1 { st.e1.varAt v1 with vtype := ExVarType.TEMP, id := -1 }
      let e2a := { e2 with
        vars := e2.vars.map (fun v =>
          if v.vtype = ExVarType.OUTPUT && v.id > id then { v with id := v.id - 1 } else v) }
      ({ st with
         e1 := e1a,
         nextOutput := st.nextOutput - 1,
         mapping := (v2, v1) :: st.mapping }, e2a)
    else
      ({ st with mapping := (v2, v1) :: st.mapping }, e2)
  else
    let ev := st.e1.getVariable ExVarType.OUTPUT st.nextOutput
    ({ st with
       e1 := ev.1,
       nextOutput := st.nextOutput + 1,
       mapping := (v2, ev.2) :: st.mapping }, e2)

/-- `Express::Merge(&expr2, mapping)` (modelled from the spec): variables
of the second expression not covered by the mapping (temporaries and
numbers) are appended to the first expression, temporaries renumbered past
the temporaries of the first expression, and the ops of the second are
appended with arguments translated through the mapping. -/
def mergeExpress (e1 e2 : Express) (mapping : List (Nat × Nat)) : Express :=
  let t1 : Int := e1.tempCount
  let acc := (List.range e2.vars.length).foldl
    (fun (acc : Express × List (Nat × Nat)) i =>
      match acc.2.lookup i with
      | some _ => acc
      | none =>
        let v := e2.varAt i
        let v1 := if v.vtype = ExVarType.TEMP then { v with id := v.id + t1 } else v
        ({ acc.1 with vars := acc.1.vars ++ [v1] }, acc.2 ++ [(i, acc.1.vars.length)]))
    (e1, mapping)
  let tr := fun (i : Nat) => (acc.2.lookup i).getD 0
  { acc.1 with
    ops := acc.1.ops ++ e2.ops.map (fun o =>
      { op := o.op, args := o.args.map tr, result := tr o.result }) }

/-- `EliminateRedundantMoves` (modelled from the spec: "redundant moves are
eliminated" after merging): drop moves of a variable onto itself. -/
def eliminateRedundantMoves (e : Express) : Express :=
  { e with ops := e.ops.filter (fun o => !(o.op = ExOpType.MOV && o.args = [o.result])) }

/-- The merged expression `expr1` after `expr1.Merge(&expr2, mapping)` in
`ExpressionTransformer::FuseExpressions`, before the reduction check. -/
def mergedExpression (f : Flow) (first second : Operation) : Express :=
  let i1 := InitExpression f first
  let m1 := MapVars f first i1
  let e1 := m1.1
  let vars1 := m1.2
  let assign := IsAssignmentOp second
  let i2 := InitExpression f second
  let m2 := MapVars f second i2
  let e2 := m2.1
  let vars2 := m2.2
  let st0 : FuseState :=
    { e1 := e1, mapping := [], nextInput := first.inputs.length,
      nextOutput := (first.outputs.length : Int) }
  let st1 :=
    if assign && second.outdegree = 0 then
      let ev2 := e2.getVariable ExVarType.OUTPUT 0
      let ev1 := st0.e1.getVariable ExVarType.OUTPUT st0.nextOutput
      { st0 with
        e1 := ev1.1,
        nextOutput := st0.nextOutput + 1,
        mapping := (ev2.2, ev1.2) :: st0.mapping }
    else st0
  let e2a := if assign && second.outdegree = 0 then (e2.getVariable ExVarType.OUTPUT 0).1 else e2
  let st2 := second.inputs.foldl (fuseSecondInput f first vars1 vars2) st1
  let ste := second.outputs.foldl (fuseSecondOutput f first vars1 vars2) (st2, e2a)
  let e1c := ste.1.e1.compactTempVars
  let e2c := ste.2.compactTempVars
  mergeExpress e1c e2c ste.1.mapping

/-- `ExpressionTransformer::FuseExpressions`: build the merged expression;
reject it (empty recipe) when the result of a reduction is consumed by a
further op; otherwise eliminate redundant moves and emit the recipe. -/
def FuseExpressions (f : Flow) (first second : Operation) : Option Express :=
  let m := mergedExpression f first second
  if m.ops.any (fun o => o.op.reduction && decide (m.usages o.result > 0)) then none
  else
    let m1 := eliminateRedundantMoves m
    if m1.ops.isEmpty then none else some m1

/-! ### Combine: flow-level fusion of two candidate ops -/

/-- Modelled from the spec: `GetPrototype` — "the representative tensor
(output, or first input if output rank is 0)". -/
def GetPrototype (f : Flow) (op : Operation) : Option Variable :=
  match op.outputs.head? with
  | some o =>
    match f.findVar o with
    | some vo =>
      if vo.rank = 0 then
        match op.inputs.head? with
        | some i => f.findVar i
        | none => some vo
      else some vo
    | none => none
  | none =>
    match op.inputs.head? with
    | some i => f.findVar i
    | none => none

/-- Swap two positions of a list (`std::swap(inputs[0], inputs[t])`). -/
def swapIdx {α : Type} (l : List α) (i j : Nat) : List α :=
  match l.get? i, l.get? j with
  | some a, some b => (l.set i b).set j a
  | _, _ => l

/-- The recipe renumbering of the assignment-target fix-up: the input
variables with ids `t` and `0` exchange their ids (`vt->id = 0;
v0->id = target_index`). -/
def exchangeInputIds (e : Express) (t : Nat) : Express :=
  let evt := e.getVariable ExVarType.INPUT t
  let ev0 := evt.1.getVariable ExVarType.INPUT 0
  let e2 := ev0.1
  let e3 := e2.setVar evt.2 { e2.varAt evt.2 with id := 0 }
  e3.setVar ev0.2 { e3.varAt ev0.2 with id := (t : Int) }

/-- Modelled from the spec: `Flow::Fuse(first, second, type, true)` —
section 4.1: inputs of the second op that are inputs of the first are
unified, internal edges (outputs of the first consumed by the second)
are dropped, remaining inputs are appended; outputs of the first that were
consumed solely by the second and are not flow outputs disappear together
with their variables; the fused op replaces the first and the second is
removed. -/
def fuseFlow (f : Flow) (first second : Operation) (newType : String) :
    Flow × Operation :=
  let deadVar := fun (vn : String) =>
    first.IsOutput vn && second.IsInput vn && f.usages vn = 1 && !(f.varOut vn)
  let newInputs := second.inputs.foldl
    (fun acc vn => if acc.contains vn || first.IsOutput vn then acc else acc ++ [vn])
    first.inputs
  let newOutputs := first.outputs.filter (fun vn => !(deadVar vn))
    ++ second.outputs.filter (fun vn => !(first.IsOutput vn))
  let fused := { first with type := newType, inputs := newInputs, outputs := newOutputs }
  ({ f with
     vars := f.vars.filter (fun v => !(deadVar v.name)),
     ops := f.ops.filterMap (fun o =>
       if o.name = second.name then none
       else some (if o.name = first.name then fused else o)) },
   fused)

/-- The type/shape and dependency checks of `ExpressionTransformer::Combine`
(lines 530-570): nomerge attributes, arities, per-operand type equality and
shape compatibility against the prototype, and absence of indirect
dependencies between the two ops. -/
def combineGuards (f : Flow) (first second : Operation) : Bool :=
  let assign := IsAssignmentOp second
  if first.getAttrBool "nomerge" false then false
  else if second.getAttrBool "nomerge" false then false
  else if first.indegree < 1 then false
  else if first.outdegree < 1 then false
  else if second.indegree < 1 then false
  else if !assign && second.outdegree < 1 then false
  else
    match GetPrototype f first with
    | none => false
    | some proto =>
      let ty := proto.dtype
      let shape := proto.shape
      let inputOk := fun (vn : String) =>
        match f.findVar vn with
        | some v => v.dtype = ty && v.shape.defined && v.shape.isCompatible shape
        | none => false
      let outputOk := fun (vn : String) =>
        match f.findVar vn with
        | some v => v.dtype = ty && v.shape.defined && (v.shape = shape || v.rank = 0)
        | none => false
      let indirect := fun (other : Operation) (vn : String) =>
        (match f.producer vn with
         | some p => p.name ≠ other.name
         | none => true) && f.dependsOn vn other.name
      first.inputs.all inputOk && second.inputs.all inputOk &&
      first.outputs.all outputOk && second.outputs.all outputOk &&
      !(first.inputs.any (indirect second)) &&
      !(second.inputs.any (indirect first))

/-- The flow-level fusion performed inside Combine: an Assign when the
second op is an assignment, a Calculate otherwise. -/
def fuseCF (f : Flow) (first second : Operation) : Flow × Operation :=
  fuseFlow f first second (if IsAssignmentOp second then "Assign" else "Calculate")

/-- The tail of `ExpressionTransformer::Combine` once the fused recipe is
known: fuse the flow ops, restore the assignment target to input index 0
when fusion displaced it (swapping the input edges and exchanging recipe
input ids 0 and `target_index`), and store the fused recipe.  The C++
`CHECK(target_index != -1)` abort is modelled as failure. -/
def combineFinish (f : Flow) (first second : Operation) (recipe : Express) :
    Option Flow :=
  if IsAssignmentOp second &&
      (fuseCF f first second).2.inputs.head? ≠ some (second.inputs.headD "") then
    match firstIdxP (fun u => u = second.inputs.headD "")
        (fuseCF f first second).2.inputs with
    | none => none
    | some t =>
      some ((fuseCF f first second).1.mapOp (fuseCF f first second).2.name
        (fun _ =>
          ({ (fuseCF f first second).2 with
             inputs := swapIdx (fuseCF f first second).2.inputs 0 t
           }).setAttrExpr (exchangeInputIds recipe t)))
  else
    some ((fuseCF f first second).1.mapOp (fuseCF f first second).2.name
      (fun o => o.setAttrExpr recipe))

/-- `ExpressionTransformer::Combine`: check the guards, fuse the
expressions (rejecting an empty recipe), then rewrite the flow. -/
def Combine (f : Flow) (first second : Operation) : Option Flow :=
  if !(combineGuards f first second) then none
  else
    match FuseExpressions f first second with
    | none => none
    | some recipe => combineFinish f first second recipe

/-! ### ExpressionTransformer::Transform: the three fixpoint loops -/

/-- The initial candidate list: Calculate/Assign-mergeable ops without the
`strict` attribute; entries are nulled once consumed. -/
def initialCandidates (f : Flow) : List (Option String) :=
  f.ops.filterMap (fun o =>
    if (IsCalculateOp o || IsAssignmentOp o) && !o.getAttrBool "strict" false
    then some (some o.name) else none)

/-- The containment condition of assignment absorption: the assignment is
the sole consumer of the producer output, which is not a flow output. -/
def soleConsumerOf (f : Flow) (vn : String) (opName : String) : Bool :=
  f.usages vn = 1 &&
  (match (f.consumers vn).head? with
   | some c => c.name = opName
   | none => false) &&
  !(f.varOut vn)

/-- The inner input scan of the assignment-absorption loop: find the first
input whose producer is a non-strict calculate op wholly consumed by this
assignment, and combine with it. -/
def tryAssignInputs (f : Flow) (op : Operation) : List String → Option Flow
  | [] => none
  | vn :: rest =>
    match f.producer vn with
    | none => tryAssignInputs f op rest
    | some p =>
      if IsCalculateOp p && !p.getAttrBool "strict" false
          && p.outputs.all (fun o => soleConsumerOf f o op.name) then
        match Combine f p op with
        | some f1 => some f1
        | none => tryAssignInputs f op rest
      else tryAssignInputs f op rest

/-- The inner input scan of the pairwise-fusion loop: find the first input
whose producer is a non-strict calculate op and combine with it. -/
def tryCalcInputs (f : Flow) (op : Operation) : List String → Option Flow
  | [] => none
  | vn :: rest =>
    match f.producer vn with
    | none => tryCalcInputs f op rest
    | some p =>
      if IsCalculateOp p && !p.getAttrBool "strict" false then
        match Combine f p op with
        | some f1 => some f1
        | none => tryCalcInputs f op rest
      else tryCalcInputs f op rest

/-- One pass over the candidate list (the `for (int i = 0; ...)` body of
the first or second loop).  Consumed candidates are nulled; a successful
combine continues the pass on the updated flow.  Returns the new flow, the
updated candidate list, and the number of successful combines. -/
def candPass (assignMode : Bool) (f : Flow) :
    List (Option String) → Flow × List (Option String) × Nat
  | [] => (f, [], 0)
  | none :: rest =>
    ((candPass assignMode f rest).1,
     none :: (candPass assignMode f rest).2.1,
     (candPass assignMode f rest).2.2)
  | some nm :: rest =>
    match f.findOp nm with
    | none =>
      ((candPass assignMode f rest).1,
       some nm :: (candPass assignMode f rest).2.1,
       (candPass assignMode f rest).2.2)
    | some op =>
      if !(if assignMode then IsAssignmentOp op else IsCalculateOp op) then
        ((candPass assignMode f rest).1,
         some nm :: (candPass assignMode f rest).2.1,
         (candPass assignMode f rest).2.2)
      else
        match (if assignMode then tryAssignInputs f op op.inputs
               else tryCalcInputs f op op.inputs) with
        | some f1 =>
          ((candPass assignMode f1 rest).1,
           none :: (candPass assignMode f1 rest).2.1,
           (candPass assignMode f1 rest).2.2 + 1)
        | none =>
          ((candPass assignMode f rest).1,
           some nm :: (candPass assignMode f rest).2.1,
           (candPass assignMode f rest).2.2)

/-- The `while (again)` fixpoint around a candidate pass, fuel-bounded.
Returns flow, candidates, total combines, number of passes, and whether
the loop reached quiescence (a pass without combines) within the fuel. -/
def candLoop (assignMode : Bool) :
    Nat → Flow → List (Option String) →
    Flow × List (Option String) × Nat × Nat × Bool
  | 0, f, c => (f, c, 0, 0, false)
  | fuel + 1, f, c =>
    if (candPass assignMode f c).2.2 = 0 then
      ((candPass assignMode f c).1, (candPass assignMode f c).2.1, 0, 1, true)
    else
      ((candLoop assignMode fuel (candPass assignMode f c).1
          (candPass assignMode f c).2.1).1,
       (candLoop assignMode fuel (candPass assignMode f c).1
          (candPass assignMode f c).2.1).2.1,
       (candPass assignMode f c).2.2 +
         (candLoop assignMode fuel (candPass assignMode f c).1
            (candPass assignMode f c).2.1).2.2.1,
       (candLoop assignMode fuel (candPass assignMode f c).1
          (candPass assignMode f c).2.1).2.2.2.1 + 1,
       (candLoop assignMode fuel (candPass assignMode f c).1
          (candPass assignMode f c).2.1).2.2.2.2)

/-- The non-strict calculate-op consumers of a variable (in consumer
order, with multiplicity). -/
def calcConsumers (f : Flow) (vn : String) : List Operation :=
  (f.consumers vn).filter (fun o => IsCalculateOp o && !o.getAttrBool "strict" false)

/-- One scan of the sibling-fusion loop: find a variable with at least two
consumers and at least two elements whose first two calculate consumers
combine, and stop at the first success. -/
def siblingScan (f : Flow) : List Variable → Option Flow
  | [] => none
  | v :: rest =>
    if f.usages v.name ≥ 2 && v.elements ≥ 2 then
      match calcConsumers f v.name with
      | a :: b :: _ =>
        (match Combine f a b with
         | some f1 => some f1
         | none => siblingScan f rest)
      | _ => siblingScan f rest
    else siblingScan f rest

/-- The `while (again)` fixpoint around the sibling scan, fuel-bounded.
Returns flow, total combines, passes, and quiescence. -/
def siblingLoop : Nat → Flow → Flow × Nat × Nat × Bool
  | 0, f => (f, 0, 0, false)
  | fuel + 1, f =>
    match siblingScan f f.vars with
    | none => (f, 0, 1, true)
    | some f1 =>
      ((siblingLoop fuel f1).1, (siblingLoop fuel f1).2.1 + 1,
       (siblingLoop fuel f1).2.2.1 + 1, (siblingLoop fuel f1).2.2.2)

/-- Statistics of one `ExpressionTransformer::Transform` run. -/
structure TransformStats where
  combines : Nat
  passes : Nat
  quiescent : Bool
  deriving DecidableEq, Repr

/-- The assignment-absorption loop of Transform. -/
def transStage1 (f : Flow) : Flow × List (Option String) × Nat × Nat × Bool :=
  candLoop true (f.ops.length + 1) f (initialCandidates f)

/-- The pairwise-fusion loop of Transform, continuing on the result of the
assignment absorption with the same candidate array. -/
def transStage2 (f : Flow) : Flow × List (Option String) × Nat × Nat × Bool :=
  candLoop false (f.ops.length + 1) (transStage1 f).1 (transStage1 f).2.1

/-- The sibling-fusion loop of Transform. -/
def transStage3 (f : Flow) : Flow × Nat × Nat × Bool :=
  siblingLoop (f.ops.length + 1) (transStage2 f).1

/-- `ExpressionTransformer::Transform`: assignment absorption, then
pairwise fusion, then sibling fusion, each run to its fixpoint.  The fuel
`f.ops.length + 1` is shown sufficient for quiescence below. -/
def expressionTransform (f : Flow) : Flow × TransformStats :=
  ((transStage3 f).1,
   { combines := (transStage1 f).2.2.1 + (transStage2 f).2.2.1 +
       (transStage3 f).2.1,
     passes := (transStage1 f).2.2.2.1 + (transStage2 f).2.2.2.1 +
       (transStage3 f).2.2.1,
     quiescent := (transStage1 f).2.2.2.2 && (transStage2 f).2.2.2.2 &&
       (transStage3 f).2.2.2 })

/-! ### DivTransformer -/

/-- Remove the operation with the given name (`Flow::RemoveOperation`). -/
def removeOperation (f : Flow) (nm : String) : Flow :=
  { f with ops := f.ops.filter (fun o => o.name ≠ nm) }

/-- One step of the first DivTransformer loop: `Div(x,c) → Mul(x,1/c)` for a
single-element float constant `c` with one consumer (a fresh buffer is
allocated and the variable data repointed), or `Div(1,x) → Reciprocal(x)`.
The float division `1.0 / c` is modelled as rational reciprocal. -/
def divMulStep (f : Flow) (nm : String) : Flow × Nat :=
  match f.findOp nm with
  | none => (f, 0)
  | some op =>
    if op.type ≠ "Div" && op.type ≠ "RealDiv" then (f, 0)
    else if op.indegree ≠ 2 then (f, 0)
    else
      match op.inputs.get? 0, op.inputs.get? 1 with
      | some fst, some snd =>
        match f.findVar fst, f.findVar snd with
        | some v1, some v2 =>
          if v2.dtype = DType.DT_FLOAT && v2.elements = 1 && v2.constant
              && f.usages snd = 1 then
            let value := (f.varValue snd).getD 0
            let fa := (f.mapOp nm (fun o => { o with type := "Mul" })).allocateScalar (1 / value)
            (fa.1.mapVar snd (fun v => { v with data := some fa.2 }), 1)
          else if v1.dtype = DType.DT_FLOAT && v1.elements = 1 && v1.constant then
            if (f.varValue fst).getD 0 = 1 then
              (f.mapOp nm (fun o => ({ o with type := "Reciprocal" }).removeInput fst), 1)
            else (f, 0)
          else (f, 0)
        | _, _ => (f, 0)
      | _, _ => (f, 0)

/-- One step of the second DivTransformer loop: collapse a matched
`Reciprocal(Sqrt(x))` to `Rsqrt(x)` unless the intermediate has more than
one consumer or is a flow output. -/
def divRsqrtStep (f : Flow) (nm : String) : Flow × Nat :=
  match f.findOp nm with
  | none => (f, 0)
  | some rcp =>
    match rcp.inputs.head? with
    | none => (f, 0)
    | some v =>
      match f.producer v with
      | none => (f, 0)
      | some sq =>
        match sq.outputs.head? with
        | none => (f, 0)
        | some so =>
          if f.usages so > 1 then (f, 0)
          else if f.varOut so then (f, 0)
          else ((f.eliminate sq).mapOp nm (fun o => { o with type := "Rsqrt" }), 1)

/-- `DivTransformer::Transform`. -/
def DivTransformer (f : Flow) : Flow × Bool :=
  let r1 := (f.ops.map (fun o => o.name)).foldl
    (fun acc nm => let s := divMulStep acc.1 nm; (s.1, acc.2 + s.2)) (f, 0)
  let names := (r1.1.findPattern "Sqrt" 0 "Reciprocal").map (fun o => o.name)
  let r2 := names.foldl
    (fun acc nm => let s := divRsqrtStep acc.1 nm; (s.1, acc.2 + s.2)) r1
  (r2.1, decide (r2.2 > 0))

/-! ### AddNegToSubTransformer -/

/-- One step of AddNegToSub: for a matched `Neg|1:Add`, eliminate the Neg
and turn the Add into a Sub when the negation has a single consumer and is
not a flow output. -/
def addNegStep (f : Flow) (nm : String) : Flow × Nat :=
  match f.findOp nm with
  | none => (f, 0)
  | some add =>
    match add.inputs.get? 1 with
    | none => (f, 0)
    | some v =>
      match f.producer v with
      | none => (f, 0)
      | some neg =>
        match neg.outputs.head? with
        | none => (f, 0)
        | some no =>
          if f.usages no = 1 && !(f.varOut no) then
            ((f.eliminate neg).mapOp nm (fun o => { o with type := "Sub" }), 1)
          else (f, 0)

/-- `AddNegToSubTransformer::Transform`. -/
def AddNegToSubTransformer (f : Flow) : Flow × Bool :=
  let names := (f.findPattern "Neg" 1 "Add").map (fun o => o.name)
  let r := names.foldl
    (fun acc nm => let s := addNegStep acc.1 nm; (s.1, acc.2 + s.2)) (f, 0)
  (r.1, decide (r.2 > 0))

/-! ### LogicTransformer -/

/-- `LogicTransformer::FoldNotCompare`: invert the comparison and drop the
negation, provided the negation is the only consumer of the comparison and the
comparison result is not a flow output. -/
def foldNotCompare (f : Flow) (cmp neg : Operation) (replacement : String) :
    Option Flow :=
  match cmp.outputs.head? with
  | none => none
  | some co =>
    if f.usages co ≠ 1 then none
    else if f.varOut co then none
    else some ((f.eliminate neg).mapOp cmp.name (fun o => { o with type := replacement }))

/-- `LogicTransformer::EliminateDoubleNegation`: bypass `Not(Not(x))` and
remove the negations that became unused. -/
def eliminateDoubleNegation (f : Flow) (neg1 neg2 : Operation) : Flow :=
  let result := neg2.outputs.headD ""
  let replacement := neg1.inputs.headD ""
  let f1 := { f with ops := f.ops.map (fun o =>
    { o with inputs := o.inputs.map (fun u => if u = result then replacement else u) }) }
  let f2 :=
    if f1.usages result = 0 && !(f1.varOut result) then removeOperation f1 neg2.name else f1
  let n1out := neg1.outputs.headD ""
  if f2.usages n1out = 0 && !(f2.varOut n1out) then removeOperation f2 neg1.name else f2

/-- One scan of the negation-folding loop: the first Not whose producer is
a negation or comparison and whose rewrite applies. -/
def notScan (f : Flow) : List String → Option Flow
  | [] => none
  | nm :: rest =>
    match f.findOp nm with
    | none => notScan f rest
    | some op =>
      if op.type ≠ "Not" || op.indegree ≠ 1 then notScan f rest
      else
        match f.producer (op.inputs.headD "") with
        | none => notScan f rest
        | some p =>
          if p.type = "Not" then some (eliminateDoubleNegation f p op)
          else
            let repl :=
              if p.type = "Equal" then some "NotEqual"
              else if p.type = "NotEqual" then some "Equal"
              else if p.type = "Less" then some "GreaterEqual"
              else if p.type = "LessEqual" then some "Greater"
              else if p.type = "Greater" then some "LessEqual"
              else if p.type = "GreaterEqual" then some "Less"
              else none
            match repl with
            | none => notScan f rest
            | some r =>
              match foldNotCompare f p op r with
              | some f1 => some f1
              | none => notScan f rest

/-- The fixpoint around the negation-folding scan, fuel-bounded.  Each
applied rewrite removes at least one Not, so the canonical fuel reaches
the fixpoint on flows without externally-visible double negations. -/
def notLoop : Nat → Flow → Flow × Nat
  | 0, f => (f, 0)
  | fuel + 1, f =>
    match notScan f (f.ops.map (fun o => o.name)) with
    | none => (f, 0)
    | some f1 =>
      let r := notLoop fuel f1
      (r.1, r.2 + 1)

/-- One step of the AndNot merging loops: for a matched `Not|k:And`,
eliminate the Not and retype the And to AndNot; for `k = 1` the two inputs
are swapped, leaving the negated operand at input 0. -/
def andNotStep (k : Nat) (f : Flow) (nm : String) : Flow × Nat :=
  match f.findOp nm with
  | none => (f, 0)
  | some logand =>
    match logand.inputs.get? k with
    | none => (f, 0)
    | some v =>
      match f.producer v with
      | none => (f, 0)
      | some logneg =>
        match logneg.outputs.head? with
        | none => (f, 0)
        | some no =>
          if f.usages no = 1 && !(f.varOut no) then
            ((f.eliminate logneg).mapOp nm (fun o =>
              if k = 1 then { o with type := "AndNot", inputs := swapIdx o.inputs 0 1 }
              else { o with type := "AndNot" }), 1)
          else (f, 0)

/-- `LogicTransformer::Transform`: fold negations into comparisons to the
fixpoint, then merge negations into logical ands (both operand positions). -/
def LogicTransformer (f : Flow) : Flow × Bool :=
  let r1 := notLoop (f.ops.length + 1) f
  let n0 := (r1.1.findPattern "Not" 0 "And").map (fun o => o.name)
  let r2 := n0.foldl
    (fun acc nm => let s := andNotStep 0 acc.1 nm; (s.1, acc.2 + s.2)) r1
  let n1 := (r2.1.findPattern "Not" 1 "And").map (fun o => o.name)
  let r3 := n1.foldl
    (fun acc nm => let s := andNotStep 1 acc.1 nm; (s.1, acc.2 + s.2)) r2
  (r3.1, decide (r3.2 > 0))

/-! ### Compiled steps: scalar handling of the Expression constructor (C7)

A compiled `Step` is embedded with just the tensor attributes the
`Expression` constructor reads: type string, input/output tensors with
shape and constness, and the structured recipe attribute. -/

/-- A compiled tensor as seen by the Expression constructor. -/
structure STensor where
  shape : Shape
  constant : Bool
  deriving DecidableEq, Repr

namespace STensor

def elements (t : STensor) : Int := t.shape.elements

def rank (t : STensor) : Nat := t.shape.rank

end STensor

/-- A compiled step (Calculate/Assign or simple fusable op). -/
structure MStep where
  type : String
  inputs : List STensor
  outputs : List STensor
  exprAttr : Option Express := none
  deriving DecidableEq, Repr

namespace MStep

def indegree (st : MStep) : Nat := st.inputs.length

/-- Modelled from the spec: `Step::GetPrototype` — the representative
tensor: the output, or the first input if the output rank is 0. -/
def getPrototype (st : MStep) : Option STensor :=
  match st.outputs.head? with
  | some o =>
    if o.rank = 0 then
      match st.inputs.head? with
      | some i => some i
      | none => some o
    else some o
  | none => st.inputs.head?

end MStep

/-- One iteration of the scalar/constant marking loop of
`InitExpression(const Step*, Express*)` (lines 226-235): inputs with one
element become CONST variables when constant, otherwise their expression
variable is marked `single`. -/
def markStepInput (st : MStep) (e : Express) (i : Nat) : Express :=
  match st.inputs.get? i with
  | none => e
  | some t =>
    if t.elements = 1 then
      let ev := e.getVariable ExVarType.INPUT i
      let e1 := ev.1
      let vi := ev.2
      if t.constant then
        e1.setVar vi { e1.varAt vi with vtype := ExVarType.CONST }
      else
        e1.setVar vi { e1.varAt vi with single := true }
    else e

/-- `InitExpression(const Step*, Express*)`: recipe (structured) for
Calculate/Assign, one-function expression for simple ops, then the
scalar/constant marking loop. -/
def initExpressionStep (st : MStep) : Express :=
  let base :=
    if st.type = "Calculate" then
      match st.exprAttr with
      | some e => e
      | none => Express.empty
    else if st.type = "Assign" then
      match st.exprAttr with
      | some e => e
      | none => assignDefaultExpr
    else
      { vars :=
          (List.range st.indegree).map (fun i => ⟨ExVarType.INPUT, (i : Int), false⟩)
            ++ [⟨ExVarType.OUTPUT, 0, false⟩],
        ops :=
          match OpType st.type with
          | some t => [⟨t, List.range st.indegree, st.indegree⟩]
          | none => [] }
  (List.range st.indegree).foldl (fun e i => markStepInput st e i) base

/-- The common element count of the Expression constructor (lines
250-255): the element count of the prototype, reduced to the minimum
broadcasting-aware common size with every non-scalar input. -/
def stepCommonElements (st : MStep) : Int :=
  match st.getPrototype with
  | none => 1
  | some proto =>
    st.inputs.foldl
      (fun e inp =>
        if inp.elements = 1 then e
        else min e (proto.shape.commonSize inp.shape))
      proto.elements

/-- The expression compiled by the Expression constructor just before
generator selection: the parsed/marked expression, with every `single`
flag cleared when the common element count is 1 (lines 260-264). -/
def expressionExpr (st : MStep) : Express :=
  let e := initExpressionStep st
  if stepCommonElements st = 1 then
    { e with vars := e.vars.map (fun v => { v with single := false }) }
  else e

/-! ### compute.h: Tensor and Instance accessors (C9, C10) -/

/-- The slice of `Tensor` (compute.h) that the instance accessors and the
shared-storage test read: instance offset, per-dimension byte strides,
whether the tensor is constant, and the shared-storage pointer (a tensor
id standing for the C++ `Tensor *shared_`). -/
structure CTensor where
  tid : Nat
  offset : Int
  strides : List Int
  hasData : Bool := false
  shared : Option Nat := none
  deriving DecidableEq, Repr

namespace CTensor

/-- `Tensor::stride(d)`. -/
def stride (t : CTensor) (d : Nat) : Int := t.strides.getD d 0

/-- `Tensor::IsConstant()`. -/
def IsConstant (t : CTensor) : Bool := t.hasData

/-- `Tensor::offset(r)` (line 292): byte offset of a row element. -/
def offsetR (t : CTensor) (r : Int) : Int := r * t.stride 0

/-- `Tensor::offset(r, c)` (line 293): byte offset of a matrix element. -/
def offsetRC (t : CTensor) (r c : Int) : Int := r * t.stride 0 + c * t.stride 1

/-- `Tensor::SharedWith(other)` (lines 333-335). -/
def SharedWith (t other : CTensor) : Bool :=
  t.shared = some other.tid || other.shared = some t.tid

end CTensor

/-- An `Instance`: the aligned data block, modelled by its base address.
The accessors compute addresses; they are given access to (and return)
the instance so that non-mutation is part of their statement. -/
structure MInstance where
  base : Int
  deriving DecidableEq, Repr

namespace MInstance

/-- `Instance::Get<T>(param)` (line 601): pointer `data_ + param->offset()`. -/
def Get (inst : MInstance) (t : CTensor) : Int × MInstance :=
  (inst.base + t.offset, inst)

/-- `Instance::Get<T>(param, r)` (line 609): pointer
`data_ + param->offset() + param->offset(r)`. -/
def GetRow (inst : MInstance) (t : CTensor) (r : Int) : Int × MInstance :=
  (inst.base + t.offset + t.offsetR r, inst)

/-- `Instance::Get<T>(param, r, c)` (line 615): pointer
`data_ + param->offset() + param->offset(r, c)`. -/
def GetElt (inst : MInstance) (t : CTensor) (r c : Int) : Int × MInstance :=
  (inst.base + t.offset + t.offsetRC r c, inst)

end MInstance

/-! ### Concrete flows for the scenarios, witnesses and counterexamples -/

/-- The reduction-guard scenario of the spec (section 8, scenario 5):
`s = Sum(x); y = Add(s, 1); z = Mul(y, x)`. -/
def c1flow : Flow :=
  { vars :=
      [ { name := "x", dtype := DType.DT_FLOAT, shape := [8] },
        { name := "s", dtype := DType.DT_FLOAT, shape := [] },
        { name := "c", dtype := DType.DT_FLOAT, shape := [], data := some 0 },
        { name := "y", dtype := DType.DT_FLOAT, shape := [] },
        { name := "z", dtype := DType.DT_FLOAT, shape := [8], out := true } ],
    ops :=
      [ { name := "sum", type := "Sum", inputs := ["x"], outputs := ["s"] },
        { name := "add", type := "Add", inputs := ["s", "c"], outputs := ["y"] },
        { name := "mul", type := "Mul", inputs := ["y", "x"], outputs := ["z"] } ],
    buffers := [[1]] }

/-- The `Sum` operation of the scenario flow. -/
def c1sum : Operation :=
  { name := "sum", type := "Sum", inputs := ["x"], outputs := ["s"] }

/-- The `Add` operation of the scenario flow. -/
def c1add : Operation :=
  { name := "add", type := "Add", inputs := ["s", "c"], outputs := ["y"] }

/-- A flow with an absorbable assignment: `t = Add(a, b); Assign(w, t)`.
Fusion appends the target `w` after the inputs of the Add, exercising the
assignment-target fix-up. -/
def c2flow : Flow :=
  { vars :=
      [ { name := "w", dtype := DType.DT_FLOAT, shape := [4] },
        { name := "a", dtype := DType.DT_FLOAT, shape := [4] },
        { name := "b", dtype := DType.DT_FLOAT, shape := [4] },
        { name := "t", dtype := DType.DT_FLOAT, shape := [4] } ],
    ops :=
      [ { name := "addop", type := "Add", inputs := ["a", "b"], outputs := ["t"] },
        { name := "asn", type := "Assign", inputs := ["w", "t"], outputs := [] } ],
    buffers := [] }

/-- The producer op of `c2flow`. -/
def c2first : Operation :=
  { name := "addop", type := "Add", inputs := ["a", "b"], outputs := ["t"] }

/-- The assignment op of `c2flow`. -/
def c2second : Operation :=
  { name := "asn", type := "Assign", inputs := ["w", "t"], outputs := [] }

/-- The result of combining the two ops of `c2flow`. -/
def c2result : Flow :=
  { vars :=
      [ { name := "w", dtype := DType.DT_FLOAT, shape := [4] },
        { name := "a", dtype := DType.DT_FLOAT, shape := [4] },
        { name := "b", dtype := DType.DT_FLOAT, shape := [4] } ],
    ops :=
      [ { name := "addop", type := "Assign", inputs := ["w", "b", "a"],
          outputs := [],
          attrs := [("expr", AttrVal.eval
            { vars :=
                [ ⟨ExVarType.INPUT, 2, false⟩,
                  ⟨ExVarType.INPUT, 1, false⟩,
                  ⟨ExVarType.TEMP, 0, false⟩,
                  ⟨ExVarType.OUTPUT, 0, false⟩,
                  ⟨ExVarType.INPUT, 0, false⟩ ],
              ops :=
                [ ⟨ExOpType.ADD, [0, 1], 2⟩,
                  ⟨ExOpType.MOV, [2], 3⟩ ] })] } ],
    buffers := [] }

/-- A `Not(x)` feeding input `k` of an `And` with other operand `y`.
The negation has a single consumer and is not a flow output. -/
def c3flow (k : Nat) : Flow :=
  { vars :=
      [ { name := "x", dtype := DType.DT_FLOAT, shape := [4] },
        { name := "y", dtype := DType.DT_FLOAT, shape := [4] },
        { name := "n", dtype := DType.DT_FLOAT, shape := [4] },
        { name := "o", dtype := DType.DT_FLOAT, shape := [4], out := true } ],
    ops :=
      [ { name := "not", type := "Not", inputs := ["x"], outputs := ["n"] },
        { name := "and", type := "And",
          inputs := if k = 1 then ["y", "n"] else ["n", "y"],
          outputs := ["o"] } ],
    buffers := [] }

/-- The flow `c3flow` after the AndNot rewrite: the negated operand `x`
comes first. -/
def c3result : Flow :=
  { vars :=
      [ { name := "x", dtype := DType.DT_FLOAT, shape := [4] },
        { name := "y", dtype := DType.DT_FLOAT, shape := [4] },
        { name := "o", dtype := DType.DT_FLOAT, shape := [4], out := true } ],
    ops :=
      [ { name := "and", type := "AndNot", inputs := ["x", "y"],
          outputs := ["o"] } ],
    buffers := [] }

/-- A `Div`/`RealDiv` whose second input is a single-element float
constant with one consumer, holding the value `v` (buffer 0). -/
def c4flow (real : Bool) (v : Rat) : Flow :=
  { vars :=
      [ { name := "x", dtype := DType.DT_FLOAT, shape := [4] },
        { name := "c", dtype := DType.DT_FLOAT, shape := [], data := some 0 },
        { name := "y", dtype := DType.DT_FLOAT, shape := [4], out := true } ],
    ops :=
      [ { name := "d", type := if real then "RealDiv" else "Div",
          inputs := ["x", "c"], outputs := ["y"] } ],
    buffers := [[v]] }

/-- `c4flow` after DivTransformer: the op is a `Mul`, a fresh buffer with
`1/v` has been allocated, and the data of `c` points at it. -/
def c4result (v : Rat) : Flow :=
  { vars :=
      [ { name := "x", dtype := DType.DT_FLOAT, shape := [4] },
        { name := "c", dtype := DType.DT_FLOAT, shape := [], data := some 1 },
        { name := "y", dtype := DType.DT_FLOAT, shape := [4], out := true } ],
    ops :=
      [ { name := "d", type := "Mul", inputs := ["x", "c"], outputs := ["y"] } ],
    buffers := [[v], [1 / v]] }

/-- `t = Sqrt(x); r = Reciprocal(t)`, with `t` optionally a flow output
(`tOut`) and optionally consumed by a second op (`extra`). -/
def c5flow (extra tOut : Bool) : Flow :=
  { vars :=
      [ { name := "x", dtype := DType.DT_FLOAT, shape := [4] },
        { name := "t", dtype := DType.DT_FLOAT, shape := [4], out := tOut },
        { name := "r", dtype := DType.DT_FLOAT, shape := [4], out := true },
        { name := "w", dtype := DType.DT_FLOAT, shape := [4], out := true } ],
    ops :=
      [ { name := "sq", type := "Sqrt", inputs := ["x"], outputs := ["t"] },
        { name := "rc", type := "Reciprocal", inputs := ["t"], outputs := ["r"] } ]
      ++ (if extra then
            [{ name := "ng", type := "Neg", inputs := ["t"],
               outputs := ["w"] : Operation }]
          else []),
    buffers := [] }

/-- `c5flow false false` after the collapse to a single `Rsqrt`. -/
def c5result : Flow :=
  { vars :=
      [ { name := "x", dtype := DType.DT_FLOAT, shape := [4] },
        { name := "r", dtype := DType.DT_FLOAT, shape := [4], out := true },
        { name := "w", dtype := DType.DT_FLOAT, shape := [4], out := true } ],
    ops :=
      [ { name := "rc", type := "Rsqrt", inputs := ["x"], outputs := ["r"] } ],
    buffers := [] }

/-- `m = Neg(b); y = Add(a, m)` with the single consumer of the negation being
the Add; `negOut` controls whether `m` is a flow output. -/
def c6flow (negOut : Bool) : Flow :=
  { vars :=
      [ { name := "a", dtype := DType.DT_FLOAT, shape := [4] },
        { name := "b", dtype := DType.DT_FLOAT, shape := [4] },
        { name := "m", dtype := DType.DT_FLOAT, shape := [4], out := negOut },
        { name := "y", dtype := DType.DT_FLOAT, shape := [4], out := true } ],
    ops :=
      [ { name := "neg", type := "Neg", inputs := ["b"], outputs := ["m"] },
        { name := "add", type := "Add", inputs := ["a", "m"], outputs := ["y"] } ],
    buffers := [] }

/-- `c6flow false` after AddNegToSub: a single `Sub(a, b)`. -/
def c6result : Flow :=
  { vars :=
      [ { name := "a", dtype := DType.DT_FLOAT, shape := [4] },
        { name := "b", dtype := DType.DT_FLOAT, shape := [4] },
        { name := "y", dtype := DType.DT_FLOAT, shape := [4], out := true } ],
    ops :=
      [ { name := "add", type := "Sub", inputs := ["a", "b"], outputs := ["y"] } ],
    buffers := [] }

/-- A Calculate step with a non-constant scalar input (index 1) next to a
vector input, for the single-marking witness. -/
def c7step : MStep :=
  { type := "Calculate",
    inputs :=
      [ { shape := [8], constant := false },
        { shape := [], constant := false } ],
    outputs := [ { shape := [8], constant := false } ],
    exprAttr := some
      { vars :=
          [ ⟨ExVarType.INPUT, 0, false⟩,
            ⟨ExVarType.INPUT, 1, false⟩,
            ⟨ExVarType.OUTPUT, 0, false⟩ ],
        ops := [ ⟨ExOpType.ADD, [0, 1], 2⟩ ] } }

/-- A scalar-output Calculate step (all operands scalar), for the
single-clearing witness. -/
def c7scalarStep : MStep :=
  { type := "Calculate",
    inputs :=
      [ { shape := [], constant := false },
        { shape := [], constant := false } ],
    outputs := [ { shape := [], constant := false } ],
    exprAttr := some
      { vars :=
          [ ⟨ExVarType.INPUT, 0, false⟩,
            ⟨ExVarType.INPUT, 1, false⟩,
            ⟨ExVarType.OUTPUT, 0, false⟩ ],
        ops := [ ⟨ExOpType.ADD, [0, 1], 2⟩ ] } }

/-- A non-constant tensor for the instance-accessor witness. -/
def c9tensor : CTensor :=
  { tid := 0, offset := 64, strides := [32, 4] }

/-- An instance for the accessor witness. -/
def c9inst : MInstance := { base := 4096 }

/-- Input `i` of an expression is marked `single`: the expression has an
INPUT variable with id `i` and its single flag is set. -/
def singleMarked (e : Express) (i : Nat) : Prop :=
  ∃ vi, e.findVarIdx ExVarType.INPUT (i : Int) = some vi ∧
    (e.varAt vi).single = true

/-! ## Theorems -/

/-! ### List helper lemmas for variable lookup -/

theorem firstIdxP_lt {α : Type} (p : α → Bool) :
    ∀ (l : List α) (i : Nat), firstIdxP p l = some i → i < l.length := by
  intro l
  induction l with
  | nil => intro i h; simp [firstIdxP] at h
  | cons a l ih =>
    intro i h
    by_cases hp : p a = true
    · simp [firstIdxP, hp] at h
      simp [List.length_cons]
      omega
    · simp [firstIdxP, hp, Option.map_eq_some'] at h
      obtain ⟨j, hj, rfl⟩ := h
      have := ih j hj
      simp [List.length_cons]
      omega

theorem firstIdxP_get {α : Type} (p : α → Bool) :
    ∀ (l : List α) (i : Nat), firstIdxP p l = some i →
      ∃ a, l[i]? = some a ∧ p a = true := by
  intro l
  induction l with
  | nil => intro i h; simp [firstIdxP] at h
  | cons a l ih =>
    intro i h
    by_cases hp : p a = true
    · simp [firstIdxP, hp] at h
      exact ⟨a, by simp [← h], hp⟩
    · simp [firstIdxP, hp, Option.map_eq_some'] at h
      obtain ⟨j, hj, rfl⟩ := h
      obtain ⟨b, hb, hpb⟩ := ih j hj
      exact ⟨b, by simpa using hb, hpb⟩

theorem firstIdxP_append {α : Type} (p : α → Bool) :
    ∀ (l l' : List α) (i : Nat), firstIdxP p l = some i →
      firstIdxP p (l ++ l') = some i := by
  intro l l'
  induction l with
  | nil => intro i h; simp [firstIdxP] at h
  | cons a l ih =>
    intro i h
    by_cases hp : p a = true
    · simp [firstIdxP, hp] at h ⊢
      exact h
    · simp [firstIdxP, hp, Option.map_eq_some'] at h ⊢
      obtain ⟨j, hj, rfl⟩ := h
      exact ⟨j, ih j hj, rfl⟩

theorem firstIdxP_append_singleton {α : Type} (p : α → Bool) :
    ∀ (l : List α) (x : α), firstIdxP p l = none → p x = true →
      firstIdxP p (l ++ [x]) = some l.length := by
  intro l
  induction l with
  | nil => intro x _ hx; simp [firstIdxP, hx]
  | cons a l ih =>
    intro x h hx
    by_cases hp : p a = true
    · simp [firstIdxP, hp] at h
    · simp only [List.cons_append, firstIdxP, hp, Bool.false_eq_true, if_false] at h ⊢
      rw [Option.map_eq_none'] at h
      show Option.map (fun i => i + 1) (firstIdxP p (l ++ [x])) = _
      rw [ih x h hx]
      simp [List.length_cons]

theorem firstIdxP_set_self {α : Type} (p : α → Bool) :
    ∀ (l : List α) (i : Nat) (v : α), firstIdxP p l = some i → p v = true →
      firstIdxP p (l.set i v) = some i := by
  intro l
  induction l with
  | nil => intro i v h _; simp [firstIdxP] at h
  | cons a l ih =>
    intro i v h hv
    by_cases hp : p a = true
    · simp [firstIdxP, hp] at h
      subst h
      simp [firstIdxP, hv]
    · simp [firstIdxP, hp, Option.map_eq_some'] at h
      obtain ⟨j, hj, rfl⟩ := h
      simp [List.set_cons_succ, firstIdxP, hp, ih j v hj hv]

theorem firstIdxP_set_other {α : Type} (p : α → Bool) :
    ∀ (l : List α) (i j : Nat) (v : α), firstIdxP p l = some i → j ≠ i →
      p v = false → firstIdxP p (l.set j v) = some i := by
  intro l
  induction l with
  | nil => intro i j v h _ _; simp [firstIdxP] at h
  | cons a l ih =>
    intro i j v h hj hv
    by_cases hp : p a = true
    · simp [firstIdxP, hp] at h
      subst h
      cases j with
      | zero => exact absurd rfl hj
      | succ j' => simp [firstIdxP, hp]
    · simp [firstIdxP, hp, Option.map_eq_some'] at h
      obtain ⟨k, hk, rfl⟩ := h
      cases j with
      | zero => simp [firstIdxP, hv, hk]
      | succ j' =>
        have : j' ≠ k := by omega
        simp [firstIdxP, hp, ih k j' v hk this hv]

theorem varAt_set_self (e : Express) (i : Nat) (v : ExVar)
    (h : i < e.vars.length) : (e.setVar i v).varAt i = v := by
  simp [Express.setVar, Express.varAt, List.getElem?_set, h]

theorem varAt_set_other (e : Express) (i j : Nat) (v : ExVar) (h : j ≠ i) :
    (e.setVar j v).varAt i = e.varAt i := by
  simp [Express.setVar, Express.varAt, List.getElem?_set, h]

/-- The marking step at input position `i` leaves the expression with a
single-marked INPUT `i` variable whenever the input tensor at `i` is a
non-constant scalar. -/
theorem markStepInput_sets (st : MStep) (i : Nat) (t : STensor)
    (hin : st.inputs.get? i = some t) (hc : t.constant = false)
    (hel : t.elements = 1) (e : Express) :
    singleMarked (markStepInput st e i) i := by
  unfold markStepInput
  rw [hin]
  simp only [hel, if_true, hc, Bool.false_eq_true, if_false]
  unfold Express.getVariable
  cases hfind : e.findVarIdx ExVarType.INPUT (i : Int) with
  | some vi =>
    obtain ⟨a, ha, hpa⟩ := firstIdxP_get _ _ _ hfind
    have hva : e.varAt vi = a := by simp [Express.varAt, ha]
    have hlt : vi < e.vars.length := firstIdxP_lt _ _ _ hfind
    refine ⟨vi, ?_, ?_⟩
    · exact firstIdxP_set_self _ _ _ _ hfind (by
        simp only [hva]
        simpa using hpa)
    · rw [varAt_set_self _ _ _ hlt]
  | none =>
    have hx : (fun v : ExVar => v.vtype = ExVarType.INPUT && v.id = (i : Int))
        ⟨ExVarType.INPUT, (i : Int), false⟩ = true := by simp
    have happ := firstIdxP_append_singleton _ _ _ hfind hx
    set e1 : Express :=
      { e with vars := e.vars ++ [⟨ExVarType.INPUT, (i : Int), false⟩] } with he1
    have hfind1 : e1.findVarIdx ExVarType.INPUT (i : Int) = some e.vars.length := happ
    have hva : e1.varAt e.vars.length = ⟨ExVarType.INPUT, (i : Int), false⟩ := by
      simp [Express.varAt, he1, List.getElem?_concat_length]
    have hlt : e.vars.length < e1.vars.length := by
      simp [he1, List.length_append]
    refine ⟨e.vars.length, ?_, ?_⟩
    · refine firstIdxP_set_self _ _ _ _ hfind1 ?_
      rw [hva]
      simp
    · rw [varAt_set_self _ _ _ hlt]

/-- Marking a different input position preserves the single mark on
INPUT `i`. -/
theorem markStepInput_preserves (st : MStep) (i j : Nat) (hij : j ≠ i)
    (e : Express) (h : singleMarked e i) :
    singleMarked (markStepInput st e j) i := by
  obtain ⟨vi, hfi, hsi⟩ := h
  have hltI : vi < e.vars.length := firstIdxP_lt _ _ _ hfi
  obtain ⟨ai, hai, hpai⟩ := firstIdxP_get _ _ _ hfi
  have hvai : e.varAt vi = ai := by simp [Express.varAt, hai]
  have haId : ai.id = (i : Int) := by
    simp only [Bool.and_eq_true, decide_eq_true_eq] at hpai
    exact hpai.2
  have hIntNe : (j : Int) ≠ (i : Int) := by
    simpa using hij
  unfold markStepInput
  cases hinj : st.inputs.get? j with
  | none => exact ⟨vi, hfi, hsi⟩
  | some u =>
    by_cases helu : u.elements = 1
    · simp only [helu, if_true]
      unfold Express.getVariable
      cases hfj : e.findVarIdx ExVarType.INPUT (j : Int) with
      | some vj =>
        obtain ⟨aj, haj, hpaj⟩ := firstIdxP_get _ _ _ hfj
        have hajId : aj.id = (j : Int) := by
          simp only [Bool.and_eq_true, decide_eq_true_eq] at hpaj
          exact hpaj.2
        have hvj : e.varAt vj = aj := by simp [Express.varAt, haj]
        have hne : vj ≠ vi := by
          intro hEq
          rw [hEq, hvai] at hvj
          rw [← hvj] at hajId
          rw [haId] at hajId
          exact hIntNe hajId.symm
        by_cases hcu : u.constant = true
        · simp only [hcu, if_true]
          refine ⟨vi, ?_, ?_⟩
          · refine firstIdxP_set_other _ _ _ _ _ hfi hne ?_
            rw [hvj]
            simp [hajId, hIntNe]
          · rw [varAt_set_other _ _ _ _ hne, hvai]
            rw [hvai] at hsi
            exact hsi
        · simp only [hcu, Bool.false_eq_true, if_false]
          refine ⟨vi, ?_, ?_⟩
          · refine firstIdxP_set_other _ _ _ _ _ hfi hne ?_
            rw [hvj]
            simp [hajId, hIntNe]
          · rw [varAt_set_other _ _ _ _ hne, hvai]
            rw [hvai] at hsi
            exact hsi
      | none =>
        set x : ExVar := ⟨ExVarType.INPUT, (j : Int), false⟩ with hxdef
        set e1 : Express := { e with vars := e.vars ++ [x] } with he1
        have hfi1 : e1.findVarIdx ExVarType.INPUT (i : Int) = some vi :=
          firstIdxP_append _ _ _ _ hfi
        have hne : e.vars.length ≠ vi := by omega
        have hva1 : e1.varAt vi = e.varAt vi := by
          simp [Express.varAt, he1, List.getElem?_append_left hltI]
        have hvax : e1.varAt e.vars.length = x := by
          simp [Express.varAt, he1, List.getElem?_concat_length]
        by_cases hcu : u.constant = true
        · simp only [hcu, if_true]
          refine ⟨vi, ?_, ?_⟩
          · refine firstIdxP_set_other _ _ _ _ _ hfi1 hne ?_
            rw [hvax]
            simp [hxdef, hIntNe]
          · rw [varAt_set_other _ _ _ _ hne, hva1, hvai]
            rw [hvai] at hsi
            exact hsi
        · simp only [hcu, Bool.false_eq_true, if_false]
          refine ⟨vi, ?_, ?_⟩
          · refine firstIdxP_set_other _ _ _ _ _ hfi1 hne ?_
            rw [hvax]
            simp [hxdef, hIntNe]
          · rw [varAt_set_other _ _ _ _ hne, hva1, hvai]
            rw [hvai] at hsi
            exact hsi
    · simp only [helu, if_false]
      exact ⟨vi, hfi, hsi⟩

/-- The whole marking loop preserves a single mark on INPUT `i` when the
input tensor at `i` is a non-constant scalar. -/
theorem fold_markStep_preserves (st : MStep) (i : Nat) (t : STensor)
    (hin : st.inputs.get? i = some t) (hc : t.constant = false)
    (hel : t.elements = 1) :
    ∀ (L : List Nat) (e : Express), singleMarked e i →
      singleMarked (L.foldl (fun e j => markStepInput st e j) e) i := by
  intro L
  induction L with
  | nil => intro e h; exact h
  | cons j L ih =>
    intro e h
    simp only [List.foldl_cons]
    apply ih
    by_cases hij : j = i
    · subst hij
      exact markStepInput_sets st j t hin hc hel e
    · exact markStepInput_preserves st i j hij e h

/-- Running the marking loop over a list containing `i` single-marks
INPUT `i` when the input tensor at `i` is a non-constant scalar. -/
theorem fold_markStep_marks (st : MStep) (i : Nat) (t : STensor)
    (hin : st.inputs.get? i = some t) (hc : t.constant = false)
    (hel : t.elements = 1) :
    ∀ (L : List Nat) (e : Express), i ∈ L →
      singleMarked (L.foldl (fun e j => markStepInput st e j) e) i := by
  intro L
  induction L with
  | nil => intro e h; simp at h
  | cons j L ih =>
    intro e h
    simp only [List.foldl_cons]
    rcases List.mem_cons.mp h with hji | hmem
    · subst hji
      exact fold_markStep_preserves st i t hin hc hel L _
        (markStepInput_sets st i t hin hc hel e)
    · exact ih _ hmem

/-- C7: in the expression parsed for a Calculate/Assign step, every
non-constant input tensor with exactly one element is marked `single`;
when the computed common element count is 1 (scalar output) the single
flag is cleared on all variables before generator selection, and when it
is not 1 the single mark survives. -/
theorem c7_scalar_single_marking (st : MStep) (i : Nat) (t : STensor)
    (hty : st.type = "Calculate" ∨ st.type = "Assign")
    (hin : st.inputs.get? i = some t)
    (hc : t.constant = false) (hel : t.elements = 1) :
    singleMarked (initExpressionStep st) i ∧
    (stepCommonElements st = 1 →
      ∀ v ∈ (expressionExpr st).vars, v.single = false) ∧
    (stepCommonElements st ≠ 1 →
      singleMarked (expressionExpr st) i) := by
  have hlt : i < st.inputs.length := by
    rcases List.get?_eq_some.mp hin with ⟨h, _⟩
    exact h
  have hmain : singleMarked (initExpressionStep st) i := by
    unfold initExpressionStep
    exact fold_markStep_marks st i t hin hc hel _ _ (List.mem_range.mpr hlt)
  refine ⟨hmain, ?_, ?_⟩
  · intro hscalar v hv
    unfold expressionExpr at hv
    rw [if_pos hscalar] at hv
    simp only [List.mem_map] at hv
    obtain ⟨w, _, rfl⟩ := hv
    rfl
  · intro hnot
    unfold expressionExpr
    rw [if_neg hnot]
    exact hmain

/-- Witness for C7 at two concrete steps: a non-scalar Calculate step
where the scalar operand stays single-marked, and an all-scalar step
where the flags are cleared. -/
theorem c7_scalar_single_marking_witness :
    (singleMarked (initExpressionStep c7step) 1 ∧
     (stepCommonElements c7step = 1 →
       ∀ v ∈ (expressionExpr c7step).vars, v.single = false) ∧
     (stepCommonElements c7step ≠ 1 →
       singleMarked (expressionExpr c7step) 1)) ∧
    (singleMarked (initExpressionStep c7scalarStep) 1 ∧
     (stepCommonElements c7scalarStep = 1 →
       ∀ v ∈ (expressionExpr c7scalarStep).vars, v.single = false) ∧
     (stepCommonElements c7scalarStep ≠ 1 →
       singleMarked (expressionExpr c7scalarStep) 1)) ∧
    stepCommonElements c7step = 8 ∧ stepCommonElements c7scalarStep = 1 :=
  ⟨c7_scalar_single_marking c7step 1 { shape := [], constant := false }
      (Or.inl rfl) (by decide) (by decide) (by decide),
   c7_scalar_single_marking c7scalarStep 1 { shape := [], constant := false }
      (Or.inl rfl) (by decide) (by decide) (by decide),
   by decide, by decide⟩

/-! ### Helper lemmas for Combine -/

theorem getAttrExpr_setAttrExpr (op : Operation) (e : Express) :
    (op.setAttrExpr e).getAttrExpr = some e := by
  simp [Operation.setAttrExpr, Operation.getAttrExpr]

theorem setAttrExpr_name (op : Operation) (e : Express) :
    (op.setAttrExpr e).name = op.name := rfl

theorem setAttrExpr_inputs (op : Operation) (e : Express) :
    (op.setAttrExpr e).inputs = op.inputs := rfl

/-- The operation list produced by `fuseFlow`, spelled out. -/
theorem fuseFlow_ops_eq (f : Flow) (first second : Operation) (ty : String) :
    (fuseFlow f first second ty).1.ops =
      f.ops.filterMap (fun o =>
        if o.name = second.name then none
        else some (if o.name = first.name then
          (fuseFlow f first second ty).2 else o)) := rfl

theorem fuseFlow_snd_name (f : Flow) (first second : Operation) (ty : String) :
    (fuseFlow f first second ty).2.name = first.name := rfl

/-- Every op of the fused flow bearing the name of the first op is the
fused op itself. -/
theorem fuseFlow_ops_named (f : Flow) (first second : Operation) (ty : String) :
    ∀ op ∈ (fuseFlow f first second ty).1.ops, op.name = first.name →
      op = (fuseFlow f first second ty).2 := by
  intro op hop hname
  rw [fuseFlow_ops_eq] at hop
  simp only [List.mem_filterMap] at hop
  obtain ⟨o, _, heq⟩ := hop
  by_cases h2 : o.name = second.name
  · rw [if_pos h2] at heq
    exact absurd heq (by simp)
  · rw [if_neg h2] at heq
    have heq2 := Option.some.inj heq
    by_cases h1 : o.name = first.name
    · rw [if_pos h1] at heq2
      exact heq2.symm
    · rw [if_neg h1] at heq2
      rw [← heq2] at hname
      exact absurd hname h1

/-- Membership in a `mapOp` result. -/
theorem mapOp_mem (f : Flow) (nm : String) (g : Operation → Operation) :
    ∀ op ∈ (f.mapOp nm g).ops,
      ∃ o ∈ f.ops, op = if o.name = nm then g o else o := by
  intro op hop
  simp only [Flow.mapOp, List.mem_map] at hop
  obtain ⟨o, ho, heq⟩ := hop
  exact ⟨o, ho, heq.symm⟩

/-- Swapping position 0 with position `t` brings the element at `t` to the
head. -/
theorem swapIdx_head (l : List String) (t : Nat) (tgt : String)
    (ht : l.get? t = some tgt) (hne : t ≠ 0) :
    (swapIdx l 0 t).head? = some tgt := by
  have htlen : t < l.length := by
    rcases List.get?_eq_some.mp ht with ⟨h, _⟩
    exact h
  have h0len : 0 < l.length := by omega
  have h0 : l.get? 0 = some (l.get ⟨0, h0len⟩) := by
    rw [List.get?_eq_getElem?]
    exact List.getElem?_eq_getElem h0len
  unfold swapIdx
  rw [h0, ht]
  rw [List.head?_eq_getElem?]
  rw [List.getElem?_set]
  rw [if_neg (by omega : ¬ t = 0)]
  rw [List.getElem?_set]
  simp [h0len]

/-- C2: after every successful Combine whose second op is an Assign, the
fused op (the op bearing the name of the first op) has the original
assignment target as input 0; when fusion placed the target at some other
index `t`, the final input list is the raw fused input list with positions
0 and `t` swapped, and the stored recipe is the fused recipe with input
variable ids 0 and `t` exchanged, so the stored recipe again names the
target as input 0. -/
theorem c2_assign_target_first (f : Flow) (first second : Operation)
    (f1 : Flow) (hassign : IsAssignmentOp second = true)
    (hcomb : Combine f first second = some f1) :
    ∃ recipe, FuseExpressions f first second = some recipe ∧
      ∀ op ∈ f1.ops, op.name = first.name →
        op.inputs.head? = some (second.inputs.headD "") ∧
        ((fuseFlow f first second "Assign").2.inputs.head? =
            some (second.inputs.headD "") →
          op.inputs = (fuseFlow f first second "Assign").2.inputs ∧
          op.getAttrExpr = some recipe) ∧
        ((fuseFlow f first second "Assign").2.inputs.head? ≠
            some (second.inputs.headD "") →
          ∃ t, firstIdxP (fun u => u = second.inputs.headD "")
                 (fuseFlow f first second "Assign").2.inputs = some t ∧
            t ≠ 0 ∧
            op.inputs = swapIdx (fuseFlow f first second "Assign").2.inputs 0 t ∧
            op.getAttrExpr = some (exchangeInputIds recipe t)) := by
  unfold Combine at hcomb
  by_cases hguards : combineGuards f first second = true
  swap
  · rw [if_pos (by simp [hguards])] at hcomb
    exact absurd hcomb (by simp)
  rw [if_neg (by simp [hguards])] at hcomb
  cases hfe : FuseExpressions f first second with
  | none =>
    rw [hfe] at hcomb
    exact absurd hcomb (by simp)
  | some recipe =>
    rw [hfe] at hcomb
    refine ⟨recipe, rfl, ?_⟩
    unfold combineFinish at hcomb
    have hcf : fuseCF f first second = fuseFlow f first second "Assign" := by
      unfold fuseCF
      rw [hassign]
      rfl
    rw [hcf, hassign] at hcomb
    simp only [Bool.true_and] at hcomb
    set target := second.inputs.headD "" with htarget
    set raw := fuseFlow f first second "Assign" with hraw
    intro op hop hname
    by_cases hdisp : raw.2.inputs.head? = some target
    · rw [if_neg (by simp [hdisp])] at hcomb
      have hf1 : f1 = raw.1.mapOp raw.2.name (fun o => o.setAttrExpr recipe) :=
        (Option.some.inj hcomb).symm
      rw [hf1] at hop
      obtain ⟨o, ho, hoe⟩ := mapOp_mem _ _ _ op hop
      by_cases hon : o.name = raw.2.name
      · have hofused : o = raw.2 :=
          fuseFlow_ops_named f first second "Assign" o ho
            (by rw [hon, fuseFlow_snd_name])
      -- op is the fused op with the recipe attached
        rw [if_pos hon, hofused] at hoe
        subst hoe
        refine ⟨?_, ?_, ?_⟩
        · rw [setAttrExpr_inputs]
          exact hdisp
        · intro _
          exact ⟨setAttrExpr_inputs _ _, getAttrExpr_setAttrExpr _ _⟩
        · intro hcontra
          exact absurd hdisp hcontra
      · rw [if_neg hon] at hoe
        subst hoe
        rw [fuseFlow_snd_name] at hon
        exact absurd hname hon
    · rw [if_pos (by simp [hdisp])] at hcomb
      cases hidx : firstIdxP (fun u => u = target) raw.2.inputs with
      | none =>
        rw [hidx] at hcomb
        exact absurd hcomb (by simp)
      | some t =>
        rw [hidx] at hcomb
        have hf1 : f1 = raw.1.mapOp raw.2.name
            (fun _ => ({ raw.2 with inputs := swapIdx raw.2.inputs 0 t
                       }).setAttrExpr (exchangeInputIds recipe t)) :=
          (Option.some.inj hcomb).symm
        obtain ⟨a, hga, hpa⟩ := firstIdxP_get _ _ _ hidx
        have hat : a = target := by simpa using hpa
        rw [hat] at hga
        have htne : t ≠ 0 := by
          intro h0
          subst h0
          rw [List.head?_eq_getElem?] at hdisp
          exact hdisp hga
        have hget : raw.2.inputs.get? t = some target := by
          rw [List.get?_eq_getElem?]
          exact hga
        rw [hf1] at hop
        obtain ⟨o, ho, hoe⟩ := mapOp_mem _ _ _ op hop
        by_cases hon : o.name = raw.2.name
        · rw [if_pos hon] at hoe
          subst hoe
          refine ⟨?_, ?_, ?_⟩
          · rw [setAttrExpr_inputs]
            exact swapIdx_head _ _ _ hget htne
          · intro hcontra
            exact absurd hcontra hdisp
          · intro _
            exact ⟨t, rfl, htne, setAttrExpr_inputs _ _,
                   getAttrExpr_setAttrExpr _ _⟩
        · rw [if_neg hon] at hoe
          subst hoe
          rw [fuseFlow_snd_name] at hon
          exact absurd hname hon

/-- Witness for C2: combining `t = Add(a, b); Assign(w, t)` produces the
fused op with the target `w` moved back to input 0 and the recipe ids
exchanged. -/
theorem c2_assign_target_first_witness :
    IsAssignmentOp c2second = true ∧
    Combine c2flow c2first c2second = some c2result ∧
    (∃ recipe, FuseExpressions c2flow c2first c2second = some recipe ∧
      ∀ op ∈ c2result.ops, op.name = c2first.name →
        op.inputs.head? = some (c2second.inputs.headD "") ∧
        ((fuseFlow c2flow c2first c2second "Assign").2.inputs.head? =
            some (c2second.inputs.headD "") →
          op.inputs = (fuseFlow c2flow c2first c2second "Assign").2.inputs ∧
          op.getAttrExpr = some recipe) ∧
        ((fuseFlow c2flow c2first c2second "Assign").2.inputs.head? ≠
            some (c2second.inputs.headD "") →
          ∃ t, firstIdxP (fun u => u = c2second.inputs.headD "")
                 (fuseFlow c2flow c2first c2second "Assign").2.inputs = some t ∧
            t ≠ 0 ∧
            op.inputs =
              swapIdx (fuseFlow c2flow c2first c2second "Assign").2.inputs 0 t ∧
            op.getAttrExpr = some (exchangeInputIds recipe t))) :=
  ⟨by decide, by decide,
   c2_assign_target_first c2flow c2first c2second c2result (by decide) (by decide)⟩

/-! ### Op-count bookkeeping for Combine and the Transform loops -/

theorem ops_filterMap_of_no_match (nm : String) (g : Operation → Operation) :
    ∀ (l : List Operation), (∀ o ∈ l, ¬(o.name = nm)) →
      l.filterMap (fun o => if o.name = nm then none else some (g o)) =
        l.map g := by
  intro l
  induction l with
  | nil => intro _; rfl
  | cons a l ih =>
    intro h
    have ha : ¬(a.name = nm) := h a (by simp)
    simp only [List.filterMap_cons, ha, if_false, List.map_cons]
    rw [ih (fun o ho => h o (by simp [ho]))]

theorem ops_filterMap_length (nm : String) (g : Operation → Operation) :
    ∀ (l : List Operation), (l.map (fun o => o.name)).Nodup →
      (∃ o ∈ l, o.name = nm) →
      (l.filterMap (fun o => if o.name = nm then none else some (g o))).length
        + 1 = l.length := by
  intro l
  induction l with
  | nil => intro _ hmem; simp at hmem
  | cons a l ih =>
    intro hnd hmem
    simp only [List.map_cons, List.nodup_cons] at hnd
    by_cases ha : a.name = nm
    · simp only [List.filterMap_cons, ha, if_true]
      have hno : ∀ o ∈ l, ¬(o.name = nm) := by
        intro o ho hco
        exact hnd.1 (by
          rw [← ha] at hco
          rw [← hco]
          exact List.mem_map.mpr ⟨o, ho, rfl⟩)
      rw [ops_filterMap_of_no_match nm g l hno]
      simp
    · simp only [List.filterMap_cons, ha, if_false]
      obtain ⟨o, ho, hco⟩ := hmem
      rcases List.mem_cons.mp ho with rfl | hol
      · exact absurd hco ha
      · have := ih hnd.2 ⟨o, hol, hco⟩
        simp only [List.length_cons]
        omega

theorem ops_filterMap_names_sublist (nm : String) (g : Operation → Operation)
    (hg : ∀ o : Operation, (g o).name = o.name) :
    ∀ (l : List Operation),
      ((l.filterMap (fun o => if o.name = nm then none else some (g o))).map
        (fun o => o.name)).Sublist (l.map (fun o => o.name)) := by
  intro l
  induction l with
  | nil => simp
  | cons a l ih =>
    by_cases ha : a.name = nm
    · simp only [List.filterMap_cons, ha, if_true, List.map_cons]
      exact ih.cons _
    · simp only [List.filterMap_cons, ha, if_false, List.map_cons, hg]
      exact ih.cons₂ _

theorem mapOp_ops_length (f : Flow) (nm : String) (g : Operation → Operation) :
    (f.mapOp nm g).ops.length = f.ops.length := by
  simp [Flow.mapOp]

theorem mapOp_ops_names (f : Flow) (nm : String) (g : Operation → Operation)
    (hg : ∀ o : Operation, o.name = nm → (g o).name = o.name) :
    (f.mapOp nm g).ops.map (fun o => o.name) =
      f.ops.map (fun o => o.name) := by
  simp only [Flow.mapOp, List.map_map]
  apply List.map_congr_left
  intro o _
  by_cases h : o.name = nm
  · simp [h, hg o h]
  · simp [h]

theorem fuseFlow_ops_length (f : Flow) (first second : Operation) (ty : String)
    (hnd : f.opNamesNodup) (hmem : second ∈ f.ops) :
    (fuseFlow f first second ty).1.ops.length + 1 = f.ops.length := by
  rw [fuseFlow_ops_eq]
  exact ops_filterMap_length _ _ _ hnd ⟨second, hmem, rfl⟩

theorem fuseFlow_nodup (f : Flow) (first second : Operation) (ty : String)
    (hnd : f.opNamesNodup) : (fuseFlow f first second ty).1.opNamesNodup := by
  unfold Flow.opNamesNodup at hnd ⊢
  rw [fuseFlow_ops_eq]
  refine List.Sublist.nodup (ops_filterMap_names_sublist _ _ ?_ _) hnd
  intro o
  by_cases h : o.name = first.name
  · simp [h, fuseFlow_snd_name]
  · simp [h]

/-- Every successful Combine removes exactly one operation and preserves
distinctness of the operation names. -/
theorem Combine_spec (f : Flow) (first second : Operation) (f1 : Flow)
    (hnd : f.opNamesNodup) (hmem : second ∈ f.ops)
    (h : Combine f first second = some f1) :
    f1.ops.length + 1 = f.ops.length ∧ f1.opNamesNodup := by
  unfold Combine at h
  split at h
  · exact absurd h (by simp)
  · split at h
    · exact absurd h (by simp)
    · simp only [combineFinish] at h
      split at h
      · split at h
        · exact absurd h (by simp)
        · have hf1 := (Option.some.inj h).symm
          subst hf1
          constructor
          · rw [mapOp_ops_length]
            exact fuseFlow_ops_length f first second _ hnd hmem
          · unfold Flow.opNamesNodup
            rw [mapOp_ops_names]
            · exact fuseFlow_nodup f first second _ hnd
            · intro o ho
              rw [setAttrExpr_name]
              exact ho.symm
      · have hf1 := (Option.some.inj h).symm
        subst hf1
        constructor
        · rw [mapOp_ops_length]
          exact fuseFlow_ops_length f first second _ hnd hmem
        · unfold Flow.opNamesNodup
          rw [mapOp_ops_names]
          · exact fuseFlow_nodup f first second _ hnd
          · intro o _
            rw [setAttrExpr_name]

theorem tryAssignInputs_spec (f : Flow) (op : Operation)
    (hnd : f.opNamesNodup) (hmem : op ∈ f.ops) :
    ∀ (L : List String) (f1 : Flow), tryAssignInputs f op L = some f1 →
      f1.ops.length + 1 = f.ops.length ∧ f1.opNamesNodup := by
  intro L
  induction L with
  | nil => intro f1 h; simp [tryAssignInputs] at h
  | cons vn rest ih =>
    intro f1 h
    unfold tryAssignInputs at h
    split at h
    · exact ih f1 h
    · split at h
      · split at h
        · rename_i f2 heq
          rw [Option.some.inj h] at heq
          exact Combine_spec f _ op f1 hnd hmem heq
        · exact ih f1 h
      · exact ih f1 h

theorem tryCalcInputs_spec (f : Flow) (op : Operation)
    (hnd : f.opNamesNodup) (hmem : op ∈ f.ops) :
    ∀ (L : List String) (f1 : Flow), tryCalcInputs f op L = some f1 →
      f1.ops.length + 1 = f.ops.length ∧ f1.opNamesNodup := by
  intro L
  induction L with
  | nil => intro f1 h; simp [tryCalcInputs] at h
  | cons vn rest ih =>
    intro f1 h
    unfold tryCalcInputs at h
    split at h
    · exact ih f1 h
    · split at h
      · split at h
        · rename_i f2 heq
          rw [Option.some.inj h] at heq
          exact Combine_spec f _ op f1 hnd hmem heq
        · exact ih f1 h
      · exact ih f1 h

/-- One candidate pass: the op count drops by exactly the number of
successful combines, and name distinctness is preserved. -/
theorem candPass_spec (mode : Bool) :
    ∀ (c : List (Option String)) (f : Flow), f.opNamesNodup →
      (candPass mode f c).1.ops.length + (candPass mode f c).2.2 =
        f.ops.length ∧
      (candPass mode f c).1.opNamesNodup := by
  intro c
  induction c with
  | nil =>
    intro f hnd
    exact ⟨rfl, hnd⟩
  | cons entry rest ih =>
    intro f hnd
    cases entry with
    | none =>
      exact ih f hnd
    | some nm =>
      show ((candPass mode f (some nm :: rest)).1.ops.length + _ = _) ∧ _
      unfold candPass
      cases hfind : f.findOp nm with
      | none =>
        exact ih f hnd
      | some op =>
        have hmem : op ∈ f.ops := by
          unfold Flow.findOp at hfind
          exact List.mem_of_find?_eq_some hfind
        dsimp only
        by_cases hw : (!(if mode = true then IsAssignmentOp op
                         else IsCalculateOp op)) = true
        · rw [if_pos hw]
          exact ih f hnd
        · rw [if_neg hw]
          cases htry : (if mode = true then tryAssignInputs f op op.inputs
                        else tryCalcInputs f op op.inputs) with
          | none =>
            exact ih f hnd
          | some f2 =>
            have hdec : f2.ops.length + 1 = f.ops.length ∧ f2.opNamesNodup := by
              cases mode with
              | false =>
                simp only [Bool.false_eq_true, if_false] at htry
                exact tryCalcInputs_spec f op hnd hmem _ f2 htry
              | true =>
                simp only [if_true] at htry
                exact tryAssignInputs_spec f op hnd hmem _ f2 htry
            have hrest := ih f2 hdec.2
            refine ⟨?_, hrest.2⟩
            show (candPass mode f2 rest).1.ops.length +
              ((candPass mode f2 rest).2.2 + 1) = f.ops.length
            have h1 := hrest.1
            have h2 := hdec.1
            omega

/-- The candidate fixpoint loop reaches quiescence within the canonical
fuel, with the op count dropping by the number of combines and the pass
count bounded by combines plus one. -/
theorem candLoop_spec (mode : Bool) :
    ∀ (fuel : Nat) (f : Flow) (c : List (Option String)),
      f.opNamesNodup → f.ops.length + 1 ≤ fuel →
      (candLoop mode fuel f c).2.2.2.2 = true ∧
      (candLoop mode fuel f c).1.ops.length +
        (candLoop mode fuel f c).2.2.1 = f.ops.length ∧
      (candLoop mode fuel f c).2.2.2.1 ≤ (candLoop mode fuel f c).2.2.1 + 1 ∧
      (candLoop mode fuel f c).1.opNamesNodup := by
  intro fuel
  induction fuel with
  | zero => intro f c _ hle; omega
  | succ fuel ih =>
    intro f c hnd hle
    have hpass := candPass_spec mode c f hnd
    have hp1 := hpass.1
    unfold candLoop
    by_cases hzero : (candPass mode f c).2.2 = 0
    · rw [if_pos hzero]
      dsimp only
      exact ⟨rfl, by omega, by omega, hpass.2⟩
    · rw [if_neg hzero]
      dsimp only
      have hlt : (candPass mode f c).1.ops.length + 1 ≤ fuel := by omega
      have hrec := ih (candPass mode f c).1 (candPass mode f c).2.1 hpass.2 hlt
      obtain ⟨hq, hlen, hpasses, hnd2⟩ := hrec
      exact ⟨hq, by omega, by omega, hnd2⟩

theorem mem_of_mem_consumers (f : Flow) (vn : String) (o : Operation)
    (h : o ∈ f.consumers vn) : o ∈ f.ops := by
  unfold Flow.consumers at h
  simp only [List.mem_flatMap] at h
  obtain ⟨a, ha, hrep⟩ := h
  rw [List.eq_of_mem_replicate hrep]
  exact ha

theorem siblingScan_spec (f : Flow) (hnd : f.opNamesNodup) :
    ∀ (vs : List Variable) (f1 : Flow), siblingScan f vs = some f1 →
      f1.ops.length + 1 = f.ops.length ∧ f1.opNamesNodup := by
  intro vs
  induction vs with
  | nil => intro f1 h; simp [siblingScan] at h
  | cons v rest ih =>
    intro f1 h
    unfold siblingScan at h
    split at h
    · cases hcc : calcConsumers f v.name with
      | nil =>
        rw [hcc] at h
        exact ih f1 h
      | cons a tl =>
        cases tl with
        | nil =>
          rw [hcc] at h
          exact ih f1 h
        | cons b tl2 =>
          rw [hcc] at h
          dsimp only at h
          have hbmem : b ∈ f.ops := by
            apply mem_of_mem_consumers f v.name
            have hb : b ∈ calcConsumers f v.name := by
              rw [hcc]
              simp
            unfold calcConsumers at hb
            exact List.mem_of_mem_filter hb
          cases hcb : Combine f a b with
          | some f2 =>
            rw [hcb] at h
            dsimp only at h
            rw [Option.some.inj h] at hcb
            exact Combine_spec f a b f1 hnd hbmem hcb
          | none =>
            rw [hcb] at h
            exact ih f1 h
    · exact ih f1 h

theorem siblingLoop_spec :
    ∀ (fuel : Nat) (f : Flow), f.opNamesNodup → f.ops.length + 1 ≤ fuel →
      (siblingLoop fuel f).2.2.2 = true ∧
      (siblingLoop fuel f).1.ops.length + (siblingLoop fuel f).2.1 =
        f.ops.length ∧
      (siblingLoop fuel f).2.2.1 ≤ (siblingLoop fuel f).2.1 + 1 ∧
      (siblingLoop fuel f).1.opNamesNodup := by
  intro fuel
  induction fuel with
  | zero => intro f _ hle; omega
  | succ fuel ih =>
    intro f hnd hle
    unfold siblingLoop
    cases hscan : siblingScan f f.vars with
    | none =>
      dsimp only
      exact ⟨rfl, by omega, by omega, hnd⟩
    | some f2 =>
      dsimp only
      have hdec := siblingScan_spec f hnd f.vars f2 hscan
      have hlt : f2.ops.length + 1 ≤ fuel := by omega
      have hrec := ih f2 hdec.2 hlt
      obtain ⟨hq, hlen, hpasses, hnd2⟩ := hrec
      have hd1 := hdec.1
      exact ⟨hq, by omega, by omega, hnd2⟩

/-- C8: `ExpressionTransformer::Transform` terminates on every finite flow:
each successful Combine strictly reduces the operation count by one, so
the three fixpoint loops reach quiescence within the canonical fuel, the
total number of combines is bounded by the initial op count, each loop
makes at most `ops + 1` passes (at most `3 ops + 3` in total), and the
total number of candidate-slot visits is bounded quadratically by
`(3 ops + 3) * ops`. -/
theorem c8_transform_terminates (f : Flow) (hnd : f.opNamesNodup) :
    (∀ (a b : Operation) (f2 : Flow), b ∈ f.ops →
        Combine f a b = some f2 → f2.ops.length + 1 = f.ops.length) ∧
    (expressionTransform f).2.quiescent = true ∧
    (expressionTransform f).1.ops.length +
      (expressionTransform f).2.combines = f.ops.length ∧
    (expressionTransform f).2.combines ≤ f.ops.length ∧
    (expressionTransform f).2.passes ≤ 3 * f.ops.length + 3 ∧
    (expressionTransform f).2.passes * f.ops.length ≤
      (3 * f.ops.length + 3) * f.ops.length := by
  have h1 : (transStage1 f).2.2.2.2 = true ∧
      (transStage1 f).1.ops.length + (transStage1 f).2.2.1 = f.ops.length ∧
      (transStage1 f).2.2.2.1 ≤ (transStage1 f).2.2.1 + 1 ∧
      (transStage1 f).1.opNamesNodup :=
    candLoop_spec true (f.ops.length + 1) f (initialCandidates f) hnd
      (le_refl _)
  have h2 : (transStage2 f).2.2.2.2 = true ∧
      (transStage2 f).1.ops.length + (transStage2 f).2.2.1 =
        (transStage1 f).1.ops.length ∧
      (transStage2 f).2.2.2.1 ≤ (transStage2 f).2.2.1 + 1 ∧
      (transStage2 f).1.opNamesNodup :=
    candLoop_spec false (f.ops.length + 1) (transStage1 f).1
      (transStage1 f).2.1 h1.2.2.2 (by
        have := h1.2.1
        omega)
  have h3 : (transStage3 f).2.2.2 = true ∧
      (transStage3 f).1.ops.length + (transStage3 f).2.1 =
        (transStage2 f).1.ops.length ∧
      (transStage3 f).2.2.1 ≤ (transStage3 f).2.1 + 1 ∧
      (transStage3 f).1.opNamesNodup :=
    siblingLoop_spec (f.ops.length + 1) (transStage2 f).1 h2.2.2.2 (by
      have ha := h1.2.1
      have hb := h2.2.1
      omega)
  have hq1 := h1.1
  have hq2 := h2.1
  have hq3 := h3.1
  have hl1 := h1.2.1
  have hl2 := h2.2.1
  have hl3 := h3.2.1
  have hp1 := h1.2.2.1
  have hp2 := h2.2.2.1
  have hp3 := h3.2.2.1
  refine ⟨?_, ?_, ?_, ?_, ?_, ?_⟩
  · intro a b f2 hmem hcb
    exact (Combine_spec f a b f2 hnd hmem hcb).1
  · show ((transStage1 f).2.2.2.2 && (transStage2 f).2.2.2.2 &&
      (transStage3 f).2.2.2) = true
    rw [hq1, hq2, hq3]
    rfl
  · show (transStage3 f).1.ops.length +
      ((transStage1 f).2.2.1 + (transStage2 f).2.2.1 +
        (transStage3 f).2.1) = f.ops.length
    omega
  · show (transStage1 f).2.2.1 + (transStage2 f).2.2.1 +
      (transStage3 f).2.1 ≤ f.ops.length
    omega
  · show (transStage1 f).2.2.2.1 + (transStage2 f).2.2.2.1 +
      (transStage3 f).2.2.1 ≤ 3 * f.ops.length + 3
    omega
  · show ((transStage1 f).2.2.2.1 + (transStage2 f).2.2.2.1 +
      (transStage3 f).2.2.1) * f.ops.length ≤
      (3 * f.ops.length + 3) * f.ops.length
    have hle : (transStage1 f).2.2.2.1 + (transStage2 f).2.2.2.1 +
        (transStage3 f).2.2.1 ≤ 3 * f.ops.length + 3 := by omega
    exact Nat.mul_le_mul_right _ hle

/-- Witness for C8 on the scenario flow, whose operation names are
distinct. -/
theorem c8_transform_terminates_witness :
    c1flow.opNamesNodup ∧
    ((∀ (a b : Operation) (f2 : Flow), b ∈ c1flow.ops →
        Combine c1flow a b = some f2 →
        f2.ops.length + 1 = c1flow.ops.length) ∧
     (expressionTransform c1flow).2.quiescent = true ∧
     (expressionTransform c1flow).1.ops.length +
       (expressionTransform c1flow).2.combines = c1flow.ops.length ∧
     (expressionTransform c1flow).2.combines ≤ c1flow.ops.length ∧
     (expressionTransform c1flow).2.passes ≤ 3 * c1flow.ops.length + 3 ∧
     (expressionTransform c1flow).2.passes * c1flow.ops.length ≤
       (3 * c1flow.ops.length + 3) * c1flow.ops.length) :=
  ⟨by decide, c8_transform_terminates c1flow (by decide)⟩

/-- C10: the shared-storage test `Tensor::SharedWith` returns true exactly
when the shared pointer of `a` is `b` or the shared pointer of `b` is `a`,
and is therefore symmetric. -/
theorem c10_sharedwith_symmetric (a b : CTensor) :
    (CTensor.SharedWith a b = true ↔
      (a.shared = some b.tid ∨ b.shared = some a.tid)) ∧
    CTensor.SharedWith a b = CTensor.SharedWith b a := by
  constructor
  · simp [CTensor.SharedWith]
  · simp [CTensor.SharedWith, Bool.or_comm]

/-- C9: for a non-constant parameter tensor, `Instance::Get` returns the
address at byte offset `offset()` from the data block, the row accessor
adds `r * stride(0)`, the element accessor adds
`r * stride(0) + c * stride(1)`, and none of the accessors change the
instance. -/
theorem c9_instance_get_offsets (inst : MInstance) (t : CTensor) (r c : Int)
    (h : t.IsConstant = false) :
    (inst.Get t).1 = inst.base + t.offset ∧ (inst.Get t).2 = inst ∧
    (inst.GetRow t r).1 = inst.base + t.offset + r * t.stride 0 ∧
    (inst.GetRow t r).2 = inst ∧
    (inst.GetElt t r c).1 =
      inst.base + t.offset + r * t.stride 0 + c * t.stride 1 ∧
    (inst.GetElt t r c).2 = inst := by
  refine ⟨rfl, rfl, rfl, rfl, ?_, rfl⟩
  show inst.base + t.offset + (r * t.stride 0 + c * t.stride 1) = _
  ring

/-- Witness for C9 at a concrete instance, tensor and indices. -/
theorem c9_instance_get_offsets_witness :
    c9tensor.IsConstant = false ∧
    ((c9inst.Get c9tensor).1 = c9inst.base + c9tensor.offset ∧
     (c9inst.Get c9tensor).2 = c9inst ∧
     (c9inst.GetRow c9tensor 2).1 =
       c9inst.base + c9tensor.offset + 2 * c9tensor.stride 0 ∧
     (c9inst.GetRow c9tensor 2).2 = c9inst ∧
     (c9inst.GetElt c9tensor 2 3).1 =
       c9inst.base + c9tensor.offset + 2 * c9tensor.stride 0 +
         3 * c9tensor.stride 1 ∧
     (c9inst.GetElt c9tensor 2 3).2 = c9inst) :=
  ⟨by decide, c9_instance_get_offsets c9inst c9tensor 2 3 (by decide)⟩

/-- C4: for a `Div`/`RealDiv` whose second input is a single-element float
constant with one consumer, DivTransformer retypes the op to `Mul`,
allocates a fresh constant buffer holding the reciprocal of the constant,
and repoints the data of the existing second-input variable at that
buffer, keeping the variable object itself (only its data index changes). -/
theorem c4_div_to_mul_reciprocal (real : Bool) (v : Rat) :
    DivTransformer (c4flow real v) = (c4result v, true) ∧
    (c4result v).buffers = (c4flow real v).buffers ++ [[1 / v]] ∧
    ((c4result v).findVar "c").map (fun w => w.data) =
      some (some (c4flow real v).buffers.length) ∧
    (c4result v).vars.map (fun w => { w with data := none }) =
      (c4flow real v).vars.map (fun w => { w with data := none }) := by
  cases real <;> exact ⟨rfl, rfl, rfl, rfl⟩

/-- C5: `Reciprocal(Sqrt(x))` collapses to a single `Rsqrt(x)` exactly
when the Sqrt output has usage count 1 (its only consumer being the
Reciprocal) and is not a flow output; otherwise the flow is unchanged. -/
theorem c5_rsqrt_collapse_iff_unobservable (extra tOut : Bool) :
    DivTransformer (c5flow extra tOut) =
      (if extra = false ∧ tOut = false then (c5result, true)
       else (c5flow extra tOut, false)) := by
  cases extra <;> cases tOut <;> rfl

/-- Counterexample for C6: in `c6flow true` the Neg output `m` is input 1
of the Add and has exactly one consumer, yet because `m` is a flow output
the transformer leaves the flow unchanged and the Add does not become a
Sub, contradicting the claim as stated. -/
theorem c6_addneg_counterexample :
    (c6flow true).usages "m" = 1 ∧
    ((c6flow true).findOp "add").map (fun o => o.inputs.get? 1) =
      some (some "m") ∧
    ((c6flow true).producer "m").map (fun o => o.type) = some "Neg" ∧
    AddNegToSubTransformer (c6flow true) = (c6flow true, false) ∧
    ¬(((AddNegToSubTransformer (c6flow true)).1.findOp "add").map
        (fun o => o.type) = some "Sub") := by
  decide

/-- C6 as amended: `Add(a, Neg(b))` becomes `Sub(a, b)` with the Neg
eliminated when the Neg has a single consumer AND its output is not a
flow output; when the output is a flow output the flow is unchanged. -/
theorem c6_addneg_to_sub (negOut : Bool) :
    AddNegToSubTransformer (c6flow negOut) =
      (if negOut then (c6flow negOut, false) else (c6result, true)) := by
  cases negOut <;> rfl

/-- Counterexample for C3: in `c3flow 0` a `Not(x)` with one consumer that
is not a flow output feeds the And, yet the resulting AndNot has operand
order `(x, y)` — the NEGATED operand first — not the claimed `(y, x)`. -/
theorem c3_andnot_counterexample :
    LogicTransformer (c3flow 0) = (c3result, true) ∧
    ((c3result.findOp "and").map (fun o => (o.type, o.inputs)) =
      some ("AndNot", ["x", "y"])) ∧
    ¬(((LogicTransformer (c3flow 0)).1.findOp "and").map
        (fun o => o.inputs) = some ["y", "x"]) := by
  decide

/-- C3 as amended: for `Not(x)` feeding either input of an `And` with
other operand `y` (single consumer, not a flow output), LogicTransformer
removes the Not and rewrites the And into `AndNot(x, y)` — the negated
operand first (the inputs are swapped when the Not fed input 1). -/
theorem c3_andnot_negated_first (k : Fin 2) :
    LogicTransformer (c3flow k) = (c3result, true) ∧
    ((c3result.findOp "and").map (fun o => (o.type, o.inputs)) =
      some ("AndNot", ["x", "y"])) := by
  fin_cases k <;> exact ⟨rfl, rfl⟩

/-- C1: an attempted fusion whose merged expression contains a reduction
op whose result is consumed by a further op is rejected — FuseExpressions
returns the empty recipe and Combine returns false — and on the concrete
flow `s = Sum(x); y = Add(s, 1); z = Mul(y, x)` the whole transformer is a
no-op: the Sum is not fused into its consumers and the three calculate
steps remain. -/
theorem c1_reduction_guard :
    (∀ (f : Flow) (first second : Operation),
      (mergedExpression f first second).ops.any
        (fun o => o.op.reduction &&
          decide ((mergedExpression f first second).usages o.result > 0)) = true →
      FuseExpressions f first second = none ∧ Combine f first second = none) ∧
    expressionTransform c1flow = (c1flow, ⟨0, 3, true⟩) ∧
    (expressionTransform c1flow).1.ops.map (fun o => o.type) =
      ["Sum", "Add", "Mul"] ∧
    (expressionTransform c1flow).1.ops.length = 3 := by
  refine ⟨?_, by decide, by decide, by decide⟩
  intro f first second h
  have hf : FuseExpressions f first second = none := by
    unfold FuseExpressions
    simp only [h, if_true]
  refine ⟨hf, ?_⟩
  unfold Combine
  rw [hf]
  cases combineGuards f first second <;> simp

/-- Witness for C1: the attempted fusion of the Sum into the Add in the
scenario flow satisfies the reduction-consumption hypothesis and is
rejected. -/
theorem c1_reduction_guard_witness :
    (mergedExpression c1flow c1sum c1add).ops.any
      (fun o => o.op.reduction &&
        decide ((mergedExpression c1flow c1sum c1add).usages o.result > 0)) = true ∧
    FuseExpressions c1flow c1sum c1add = none ∧
    Combine c1flow c1sum c1add = none :=
  ⟨by decide, c1_reduction_guard.1 c1flow c1sum c1add (by decide)⟩

end Myelin
